import Mathlib

/-!
# Verification of the game-template rendering subsystem

A shallow embedding of the repository's rendering subsystem
(`src/graphics_context.rs`, `src/graphics.rs`, `src/engine.rs`,
`src/mesh.rs`, `src/asset.rs`, `src/state.rs`) together with proofs of the
specification's testable properties.

Machine integers (`u32`, `u16`, `i64`, `usize`) are embedded as `Nat`/`Int`
with explicit reduction modulo `2^w` exactly where the Rust code performs
arithmetic that can overflow; Rust's release-profile wrapping semantics is
used for those spots.  External collaborators (the GPU driver, the window
system, the glTF parser, the serde encoders) are modelled at the boundary
the repository's code observes: the driver's acquisition results become an
oracle argument, byte/texture payloads become explicit data, and the GPU
side effects the code issues are recorded in an explicit operation log.
-/

/-! ## `src/graphics_context.rs` — the wgpu presentation surface

`GraphicsContext` owns the surface configuration and the depth texture.
`resize` overwrites the stored width/height and, when the (u32) product of
the new dimensions is non-zero, reconfigures the device surface and
recreates the depth texture; `get_frame` skips zero-area surfaces, and on
an acquisition failure reconfigures once and retries exactly once, the
second failure being fatal (`expect` panic).  Each operation additionally
returns the list of GPU-side effects it issued, in order. -/

/-- `2^32`, the modulus of Rust `u32` arithmetic. -/
def U32MOD : Nat := 4294967296

/-- Rust release-mode wrapping `u32` multiplication (`w * h` on `u32`). -/
def wrapMul32 (a b : Nat) : Nat := (a * b) % U32MOD

/-- `winit::dpi::PhysicalSize<u32>` restricted to the two fields used. -/
structure PhysicalSize where
  width : Nat
  height : Nat
deriving Repr, DecidableEq

/-- The fields of `wgpu::SurfaceConfiguration` that the claims mention
(the format, present mode, usage and latency fields are constants never
mutated after `new`, so they are omitted). -/
structure SurfaceConfiguration where
  width : Nat
  height : Nat
deriving Repr, DecidableEq

/-- A depth `Texture`/`TextureView` as observable through its creation
parameters: the dimensions it was created with, plus a creation stamp
(`id`) distinguishing physically distinct textures with equal dimensions
(`create_depth_texture` always allocates a fresh texture). -/
structure DepthTexture where
  id : Nat
  width : Nat
  height : Nat
deriving Repr, DecidableEq

/-- One GPU-side effect issued by `GraphicsContext` code. -/
inductive GpuOp where
  | configureSurface (width height : Nat)
  | createDepth (width height : Nat)
  | acquireAttempt
  | submit
deriving Repr, DecidableEq

/-- The mutable state of `GraphicsContext` (`src/graphics_context.rs`):
surface configuration, depth texture and its view.  `nextTexId` is the
model's fresh-name supply for depth-texture creation stamps. -/
structure GraphicsContext where
  surface_config : SurfaceConfiguration
  depth_texture : DepthTexture
  depth_texture_view : DepthTexture
  nextTexId : Nat
deriving Repr, DecidableEq

/-- `create_depth_texture(device, physical_size)`: allocates a fresh depth
texture of exactly `physical_size` and a view of it
(`src/graphics_context.rs:166-176`). -/
def create_depth_texture (freshId : Nat) (physical_size : PhysicalSize) :
    DepthTexture × DepthTexture :=
  let t : DepthTexture :=
    { id := freshId, width := physical_size.width, height := physical_size.height }
  (t, t)

/-- `GraphicsContext::new` (success path, `src/graphics_context.rs:22-122`):
the surface configuration takes the window's physical size and the depth
texture is created with that same size.  Adapter/format negotiation
failures abort before any state exists and are outside the claims. -/
def GraphicsContext.new (physical_size : PhysicalSize) : GraphicsContext :=
  let (dt, dtv) := create_depth_texture 0 physical_size
  { surface_config := { width := physical_size.width, height := physical_size.height }
    depth_texture := dt
    depth_texture_view := dtv
    nextTexId := 1 }

/-- `GraphicsContext::resize` (`src/graphics_context.rs:124-132`): store the
new width/height, then — only when the wrapping `u32` product of the stored
dimensions is non-zero — configure the surface and recreate the depth
texture and its view.  Returns the new state and the GPU effects issued. -/
def GraphicsContext.resize (ctx : GraphicsContext) (physical_size : PhysicalSize) :
    GraphicsContext × List GpuOp :=
  let cfg : SurfaceConfiguration :=
    { width := physical_size.width, height := physical_size.height }
  if wrapMul32 cfg.width cfg.height ≠ 0 then
    let (dt, dtv) := create_depth_texture ctx.nextTexId physical_size
    ({ surface_config := cfg
       depth_texture := dt
       depth_texture_view := dtv
       nextTexId := ctx.nextTexId + 1 },
     [GpuOp.configureSurface cfg.width cfg.height,
      GpuOp.createDepth physical_size.width physical_size.height])
  else
    ({ ctx with surface_config := cfg }, [])

/-- Run a sequence of `resize` calls, accumulating the effect log. -/
def GraphicsContext.resizeSeq (ctx : GraphicsContext) :
    List PhysicalSize → GraphicsContext × List GpuOp
  | [] => (ctx, [])
  | s :: rest =>
    let (ctx1, ops1) := ctx.resize s
    let (ctx2, ops2) := ctx1.resizeSeq rest
    (ctx2, ops1 ++ ops2)

/-- Outcome of `GraphicsContext::get_frame`. -/
inductive FrameResult where
  /-- `None`: zero-area surface, frame skipped. -/
  | skip
  /-- `Some((frame, view))`: a presentable frame was acquired. -/
  | frame
  /-- the `expect("surface failed to reconstruct")` panic: both the initial
  acquisition and the single retry failed. -/
  | fatal
deriving Repr, DecidableEq

/-- `GraphicsContext::get_frame` (`src/graphics_context.rs:141-159`).
`acquireOk n` tells whether the platform's `get_current_texture` succeeds
on the `n`-th attempt (0-based); this is the oracle for surface
lost/outdated conditions.  Returns the outcome and the GPU effects issued,
in order. -/
def GraphicsContext.get_frame (ctx : GraphicsContext) (acquireOk : Nat → Bool) :
    FrameResult × List GpuOp :=
  if wrapMul32 ctx.surface_config.width ctx.surface_config.height = 0 then
    (FrameResult.skip, [])
  else if acquireOk 0 then
    (FrameResult.frame, [GpuOp.acquireAttempt])
  else if acquireOk 1 then
    (FrameResult.frame,
     [GpuOp.acquireAttempt,
      GpuOp.configureSurface ctx.surface_config.width ctx.surface_config.height,
      GpuOp.acquireAttempt])
  else
    (FrameResult.fatal,
     [GpuOp.acquireAttempt,
      GpuOp.configureSurface ctx.surface_config.width ctx.surface_config.height,
      GpuOp.acquireAttempt])

/-- Number of surface (re)configurations in an effect log. -/
def countConfigures (ops : List GpuOp) : Nat :=
  (ops.filter fun op =>
    match op with
    | GpuOp.configureSurface _ _ => true
    | _ => false).length

/-- Number of acquisition attempts in an effect log. -/
def countAcquires (ops : List GpuOp) : Nat :=
  (ops.filter fun op =>
    match op with
    | GpuOp.acquireAttempt => true
    | _ => false).length

/-- The depth attachment's dimensions agree with the stored surface
configuration (texture and view alike). -/
def depthMatchesConfig (ctx : GraphicsContext) : Prop :=
  ctx.depth_texture.width = ctx.surface_config.width ∧
  ctx.depth_texture.height = ctx.surface_config.height ∧
  ctx.depth_texture_view = ctx.depth_texture

instance (ctx : GraphicsContext) : Decidable (depthMatchesConfig ctx) := by
  unfold depthMatchesConfig; infer_instance

/-! ## `src/graphics.rs` — the threaded graphics subsystem

`GraphicsSubsystem` owns the sender side of a bounded `sync_channel` of
capacity `EVENT_BUFFER_SIZE = 16` and two monotone resource counters; a
dedicated render thread owns the `RenderContext` and drains the channel,
applying at most one command per loop iteration before its
`pre_present_notify` redraw point.  `LoadModel`/`LoadTexture` handling on
the render thread is `todo!()`, i.e. a panic. -/

/-- `EVENT_BUFFER_SIZE` (`src/graphics.rs:40`). -/
def EVENT_BUFFER_SIZE : Nat := 16

/-- `GraphicsCommand` (`src/graphics.rs:42-46`); the `&'static [u8]` asset
payloads are irrelevant to every claim and omitted. -/
inductive GraphicsCommand where
  | loadModel (index : Nat)
  | loadTexture (index : Nat)
  | resizeSwapchain (size : PhysicalSize)
deriving Repr, DecidableEq

/-- A `try_send` failure.  With the receiver thread alive (as in every run
modelled here) `std::sync::mpsc::SyncSender::try_send` on a bounded channel
can only fail with `TrySendError::Full`, the queue-saturation case. -/
inductive SendError where
  | full
deriving Repr, DecidableEq

/-- `SyncSender::try_send` on the bounded channel: enqueue at the back when
fewer than `EVENT_BUFFER_SIZE` commands are buffered, otherwise fail with
`Full` and leave the queue unchanged. -/
def syncChannelTrySend (queue : List GraphicsCommand) (cmd : GraphicsCommand) :
    Except SendError (List GraphicsCommand) :=
  if queue.length < EVENT_BUFFER_SIZE then Except.ok (queue ++ [cmd])
  else Except.error SendError.full

/-- The observable state of `RenderContext` (`src/graphics.rs:114-129`):
the swapchain image extent and the viewport extent derived from it by
`create_framebuffers` (`src/graphics.rs:372-393`, which sets
`viewport.extent` from `images[0].extent()`). -/
structure RenderContext where
  swapchainExtent : PhysicalSize
  viewportExtent : PhysicalSize
deriving Repr, DecidableEq

/-- `RenderContext::recreate_swapchain` (`src/graphics.rs:312-328`): the
swapchain is recreated with `image_extent = new_size` and the framebuffers
(and viewport) are rebuilt from the new images. -/
def RenderContext.recreate_swapchain (_ctx : RenderContext) (new_size : PhysicalSize) :
    RenderContext :=
  { swapchainExtent := new_size, viewportExtent := new_size }

/-- The render thread: its exclusively-owned context plus whether it has
panicked (the `todo!()` arms of `src/graphics.rs:71-72`). -/
structure RenderThreadState where
  ctx : RenderContext
  panicked : Bool
deriving Repr, DecidableEq

/-- One iteration of the render-thread loop (`src/graphics.rs:68-81`):
`try_recv` at most one command — `LoadModel`/`LoadTexture` hit `todo!()`
(panic), `ResizeSwapchain` recreates the swapchain, an empty channel is a
no-op — then reach `pre_present_notify` (the redraw point).  A panicked
thread performs nothing further. -/
def renderIter (queue : List GraphicsCommand) (st : RenderThreadState) :
    List GraphicsCommand × RenderThreadState :=
  if st.panicked then (queue, st)
  else
    match queue with
    | [] => (queue, st)
    | GraphicsCommand.loadModel _ :: rest => (rest, { st with panicked := true })
    | GraphicsCommand.loadTexture _ :: rest => (rest, { st with panicked := true })
    | GraphicsCommand.resizeSwapchain size :: rest =>
      (rest, { st with ctx := st.ctx.recreate_swapchain size })

/-- Iterate the render-thread loop `n` times. -/
def renderIterN : Nat → List GraphicsCommand → RenderThreadState →
    List GraphicsCommand × RenderThreadState
  | 0, queue, st => (queue, st)
  | n + 1, queue, st =>
    let (queue1, st1) := renderIter queue st
    renderIterN n queue1 st1

/-- `GraphicsSubsystem` (`src/graphics.rs:54-59`) together with the channel
buffer and the render thread it communicates with, so whole-system runs can
be stated.  `model_index`/`texture_index` start at 0 (`src/graphics.rs:84-85`). -/
structure GraphicsSubsystem where
  model_index : Nat
  texture_index : Nat
  queue : List GraphicsCommand
  render : RenderThreadState
deriving Repr, DecidableEq

/-- `GraphicsSubsystem::new` (success path, `src/graphics.rs:62-89`): zero
counters, empty channel, fresh render context of the window's size. -/
def GraphicsSubsystem.new (window_size : PhysicalSize) : GraphicsSubsystem :=
  { model_index := 0
    texture_index := 0
    queue := []
    render :=
      { ctx := { swapchainExtent := window_size, viewportExtent := window_size }
        panicked := false } }

/-- `GraphicsSubsystem::load_model` (`src/graphics.rs:91-97`): increment
`model_index` first (this deliberately skips zero), then `try_send` — note
the source sends `self.texture_index` in the payload — and on success
return `Model(self.model_index)`.  The incremented counter persists even
when `try_send` fails. -/
def GraphicsSubsystem.load_model (g : GraphicsSubsystem) :
    Except SendError Nat × GraphicsSubsystem :=
  let g1 := { g with model_index := g.model_index + 1 }
  match syncChannelTrySend g1.queue (GraphicsCommand.loadModel g1.texture_index) with
  | Except.ok q => (Except.ok g1.model_index, { g1 with queue := q })
  | Except.error e => (Except.error e, g1)

/-- `GraphicsSubsystem::load_texture` (`src/graphics.rs:99-105`): same
shape as `load_model`, on `texture_index`. -/
def GraphicsSubsystem.load_texture (g : GraphicsSubsystem) :
    Except SendError Nat × GraphicsSubsystem :=
  let g1 := { g with texture_index := g.texture_index + 1 }
  match syncChannelTrySend g1.queue (GraphicsCommand.loadTexture g1.texture_index) with
  | Except.ok q => (Except.ok g1.texture_index, { g1 with queue := q })
  | Except.error e => (Except.error e, g1)

/-- `GraphicsSubsystem::resize_window` (`src/graphics.rs:107-111`): forward
the new size to the render thread via `try_send`, surfacing the send result
to the caller unchanged. -/
def GraphicsSubsystem.resize_window (g : GraphicsSubsystem) (new_size : PhysicalSize) :
    Except SendError Unit × GraphicsSubsystem :=
  match syncChannelTrySend g.queue (GraphicsCommand.resizeSwapchain new_size) with
  | Except.ok q => (Except.ok (), { g with queue := q })
  | Except.error e => (Except.error e, g)

/-- An operation on the whole subsystem: one of the three sender-side calls
or one iteration of the render-thread loop. -/
inductive SubsysOp where
  | loadModel
  | loadTexture
  | resizeWindow (size : PhysicalSize)
  | renderStep
deriving Repr, DecidableEq

/-- The caller-visible event an operation produces. -/
inductive SubsysEv where
  | modelId (id : Nat)
  | textureId (id : Nat)
  | resizeSent
  | busy
  | renderStepped
deriving Repr, DecidableEq

/-- Small-step semantics of the whole subsystem. -/
def GraphicsSubsystem.step (g : GraphicsSubsystem) :
    SubsysOp → GraphicsSubsystem × SubsysEv
  | SubsysOp.loadModel =>
    match g.load_model with
    | (Except.ok id, g1) => (g1, SubsysEv.modelId id)
    | (Except.error _, g1) => (g1, SubsysEv.busy)
  | SubsysOp.loadTexture =>
    match g.load_texture with
    | (Except.ok id, g1) => (g1, SubsysEv.textureId id)
    | (Except.error _, g1) => (g1, SubsysEv.busy)
  | SubsysOp.resizeWindow size =>
    match g.resize_window size with
    | (Except.ok _, g1) => (g1, SubsysEv.resizeSent)
    | (Except.error _, g1) => (g1, SubsysEv.busy)
  | SubsysOp.renderStep =>
    let (q1, st1) := renderIter g.queue g.render
    ({ g with queue := q1, render := st1 }, SubsysEv.renderStepped)

/-- Run a sequence of operations, collecting the events in order. -/
def GraphicsSubsystem.run (g : GraphicsSubsystem) :
    List SubsysOp → GraphicsSubsystem × List SubsysEv
  | [] => (g, [])
  | op :: rest =>
    let (g1, ev) := g.step op
    let (g2, evs) := g1.run rest
    (g2, ev :: evs)

/-- The model identifiers a run handed back to callers, in order. -/
def modelIdsOf (evs : List SubsysEv) : List Nat :=
  evs.filterMap fun ev =>
    match ev with
    | SubsysEv.modelId id => some id
    | _ => none

/-- The texture identifiers a run handed back to callers, in order. -/
def textureIdsOf (evs : List SubsysEv) : List Nat :=
  evs.filterMap fun ev =>
    match ev with
    | SubsysEv.textureId id => some id
    | _ => none

/-! ## `src/engine.rs` — the window event loop

`Engine::run` installs an event-loop callback.  The arm relevant to the
claims is `WindowEvent::Resized`: it calls
`self.graphics.resize_window(new_size)` and, when that returns an error
(which a full command queue produces), logs the error and calls
`elwt.exit()`, terminating the event loop.  `RedrawRequested`'s body is
entirely commented out in the source. -/

/-- A received `winit::event::WindowEvent`, restricted to the arms the
callback matches on (`src/engine.rs:98-162`).  The scale-factor payload is
the opaque `f64` bit pattern. -/
inductive EngWindowEvent where
  | resized (size : PhysicalSize)
  | scaleFactorChanged (bits : Nat)
  | closeRequested
  | destroyed
  | redrawRequested
  | otherEvent
deriving Repr, DecidableEq

/-- The engine state the event callback can observe or mutate:
the graphics subsystem, the stored scale factor (`f64` bit pattern), and
whether `elwt.exit()` has been called. -/
structure Engine where
  graphics : GraphicsSubsystem
  scale_factor : Nat
  exited : Bool
deriving Repr, DecidableEq

/-- One dispatch of the `Event::WindowEvent` arm of the `Engine::run`
callback (`src/engine.rs:96-163`): `Resized` forwards to `resize_window`
and exits the event loop on error; `ScaleFactorChanged` stores the factor;
`CloseRequested` exits; `Destroyed`, `RedrawRequested` (fully commented
out) and the wildcard do nothing. -/
def Engine.handleWindowEvent (e : Engine) : EngWindowEvent → Engine
  | EngWindowEvent.resized size =>
    match e.graphics.resize_window size with
    | (Except.ok _, g1) => { e with graphics := g1 }
    | (Except.error _, g1) => { e with graphics := g1, exited := true }
  | EngWindowEvent.scaleFactorChanged bits => { e with scale_factor := bits }
  | EngWindowEvent.closeRequested => { e with exited := true }
  | EngWindowEvent.destroyed => e
  | EngWindowEvent.redrawRequested => e
  | EngWindowEvent.otherEvent => e

/-! ## `src/mesh.rs` — glTF mesh import

`Mesh::load` walks every scene's nodes; per node it snapshots
`position_offset = positions.len()`, then per primitive it skips (with a
warning) any non-triangle mode, missing position or color attribute, or
non-`u16` index width, and otherwise appends positions, colors and
offset-shifted `u16` indices.  The glTF byte parsing (`import_slice`) is
an external crate; the model takes the parsed document. -/

/-- `2^16`, the modulus of Rust `u16` arithmetic (the index offset add
`i + position_offset as u16` is `u16` arithmetic, wrapping in release). -/
def U16MOD : Nat := 65536

/-- An `f32`-triple vertex attribute (positions, rgb colors) carried as
opaque bit patterns; `Mesh::load` never computes with the components. -/
structure Vec3F where
  x : Nat
  y : Nat
  z : Nat
deriving Repr, DecidableEq

/-- `gltf::mesh::util::ReadIndices`: the index accessor's width. -/
inductive GltfIndices where
  | u8 (indices : List Nat)
  | u16 (indices : List Nat)
  | u32 (indices : List Nat)
deriving Repr, DecidableEq

/-- `gltf::mesh::Mode`. -/
inductive GltfMode where
  | points
  | lines
  | lineLoop
  | lineStrip
  | triangles
  | triangleStrip
  | triangleFan
deriving Repr, DecidableEq

/-- A glTF primitive as `Mesh::load` reads it: its mode, and the optional
position / color-set-0 / index accessors (colors after `into_rgb_f32`). -/
structure GltfPrimitive where
  mode : GltfMode
  positions : Option (List Vec3F)
  colors : Option (List Vec3F)
  indices : Option GltfIndices
deriving Repr, DecidableEq

/-- A glTF node: optionally a mesh, which is its list of primitives. -/
structure GltfNode where
  mesh : Option (List GltfPrimitive)
deriving Repr, DecidableEq

/-- A parsed glTF document: scenes, each a list of nodes. -/
structure GltfDocument where
  scenes : List (List GltfNode)
deriving Repr, DecidableEq

/-- A warning `Mesh::load` logs while skipping a primitive. -/
inductive MeshWarning where
  | nonTriangleGeometry
  | noPositionAttribute
  | noColorAttribute
  | unsupportedIndexType
deriving Repr, DecidableEq

/-- The accumulator state of `Mesh::load`'s loops plus the warnings logged
so far. -/
structure MeshAccum where
  positions : List Vec3F
  colors : List Vec3F
  indices : List Nat
  warnings : List MeshWarning
deriving Repr, DecidableEq

/-- The primitive loop body (`src/mesh.rs:34-63`): skip-with-warning on
non-triangle mode, missing positions, missing color set 0, or an index
accessor that is not `u16`; otherwise extend the three buffers, each index
shifted by `position_offset` in wrapping `u16` arithmetic. -/
def meshLoadPrimitive (position_offset : Nat) (acc : MeshAccum)
    (p : GltfPrimitive) : MeshAccum :=
  if p.mode ≠ GltfMode.triangles then
    { acc with warnings := acc.warnings ++ [MeshWarning.nonTriangleGeometry] }
  else
    match p.positions with
    | none => { acc with warnings := acc.warnings ++ [MeshWarning.noPositionAttribute] }
    | some pos =>
      match p.colors with
      | none => { acc with warnings := acc.warnings ++ [MeshWarning.noColorAttribute] }
      | some col =>
        match p.indices with
        | some (GltfIndices.u16 idx) =>
          { acc with
            positions := acc.positions ++ pos
            colors := acc.colors ++ col
            indices := acc.indices ++ idx.map fun i => (i + position_offset) % U16MOD }
        | _ => { acc with warnings := acc.warnings ++ [MeshWarning.unsupportedIndexType] }

/-- The node loop body (`src/mesh.rs:27-64`): snapshot
`position_offset = positions.len()` before the mesh check, skip mesh-less
nodes, then fold the primitive loop. -/
def meshLoadNode (acc : MeshAccum) (node : GltfNode) : MeshAccum :=
  let position_offset := acc.positions.length
  match node.mesh with
  | none => acc
  | some prims => prims.foldl (meshLoadPrimitive position_offset) acc

/-- The imported mesh as observable through its buffers:
`Mesh { positions, colors, indices, index_count }` with each buffer's
contents, plus the warnings logged during import. -/
structure MeshResult where
  positions : List Vec3F
  colors : List Vec3F
  indices : List Nat
  index_count : Nat
  warnings : List MeshWarning
deriving Repr, DecidableEq

/-- `Mesh::load` (`src/mesh.rs:19-85`) after the external `import_slice`
parse: fold the scene/node/primitive loops, then build the vertex/index
buffers from the accumulated data with `index_count = indices.len()`. -/
def Mesh.load (doc : GltfDocument) : MeshResult :=
  let acc := (doc.scenes.foldl (fun a scene => scene.foldl meshLoadNode a)
    { positions := [], colors := [], indices := [], warnings := [] })
  { positions := acc.positions
    colors := acc.colors
    indices := acc.indices
    index_count := acc.indices.length
    warnings := acc.warnings }

/-! ## `src/state.rs` and `src/asset.rs` — persisted key-value state

`State` wraps a `hashbrown::HashMap<Cow<str>, StateType>`; it is embedded
as the map's iteration sequence (an association list), which is exactly
what serialization observes.  A Rust `String` is embedded as its UTF-8
byte sequence, an `f64` as its bit pattern, an `i64` as an `Int`.
`Asset::save`/`Asset::load` dispatch on the type's `BACKEND` constant to
one of two external serde encoders (`rmp_serde` MessagePack, `serde_yaml`
YAML); the file is embedded as the byte list written/read.  The two
encoders are external crates, so they are modelled at byte level from
their wire formats: MessagePack per the MessagePack specification with
`rmp_serde`'s compact integer choices and its externally-tagged
single-entry-map enum representation; YAML as the line-per-entry
`key: !Variant scalar` block mapping `serde_yaml` emits, with floats
rendered as an exact (trailing-zero-trimmed) decimal expansion — a
lossless rendering, like the shortest-round-trip form the real crate
prints — and parsed back exactly. -/

/-- UTF-8 byte sequence of a Rust `String`/`Cow<str>`. -/
abbrev RStr := List Nat

/-- `StateType` (`src/state.rs:8-13`). -/
inductive StateType where
  | float (bits : Nat)
  | int (v : Int)
  | string (s : RStr)
deriving Repr, DecidableEq

/-- `State` (`src/state.rs:15-16`): the map's iteration sequence. -/
structure State where
  entries : List (RStr × StateType)
deriving Repr, DecidableEq

/-- `Backend` (`src/asset.rs:20-24`). -/
inductive Backend where
  | messagePack
  | yaml
deriving Repr, DecidableEq

/-- `impl Asset for State` selects `Backend::Yaml` (under
`debug_assertions`, `src/state.rs:18-21`; no release-profile backend is
declared in the source). -/
def State.BACKEND : Backend := Backend.yaml

/-- Big-endian bytes of `n`, exactly `k` bytes (the multi-byte integer
layout of MessagePack). -/
def natBE : Nat → Nat → List Nat
  | 0, _ => []
  | k + 1, n => natBE k (n / 256) ++ [n % 256]

/-- Big-endian byte-list to number. -/
def beToNat (bytes : List Nat) : Nat := bytes.foldl (fun a b => a * 256 + b) 0

/-- Split off exactly `k` bytes from the front of the input. -/
def takeN : Nat → List Nat → Option (List Nat × List Nat)
  | 0, l => some ([], l)
  | _ + 1, [] => none
  | k + 1, b :: l => (takeN k l).map fun p => (b :: p.1, p.2)

/-- MessagePack `str` encoding (fixstr / str8 / str16 / str32, chosen by
length as `rmp` does). -/
def encMpStr (s : RStr) : List Nat :=
  if s.length ≤ 31 then (160 + s.length) :: s
  else if s.length < 256 then 217 :: s.length :: s
  else if s.length < 65536 then 218 :: (natBE 2 s.length ++ s)
  else 219 :: (natBE 4 s.length ++ s)

/-- MessagePack integer encoding in `rmp`'s most compact representation
(positive/negative fixint, then the smallest fitting uint/int family). -/
def encMpInt (v : Int) : List Nat :=
  if 0 ≤ v then
    if v ≤ 127 then [v.toNat]
    else if v ≤ 255 then [204, v.toNat]
    else if v ≤ 65535 then 205 :: natBE 2 v.toNat
    else if v ≤ 4294967295 then 206 :: natBE 4 v.toNat
    else 207 :: natBE 8 v.toNat
  else
    if -32 ≤ v then [(v + 256).toNat]
    else if -128 ≤ v then [208, (v + 256).toNat]
    else if -32768 ≤ v then 209 :: natBE 2 (v + 65536).toNat
    else if -2147483648 ≤ v then 210 :: natBE 4 (v + 4294967296).toNat
    else 211 :: natBE 8 (v + 18446744073709551616).toNat

/-- MessagePack `float 64`: marker `0xcb` plus the 8 IEEE-754 bytes. -/
def encMpFloat (bits : Nat) : List Nat := 203 :: natBE 8 bits

/-- Variant name `"Float"` as bytes. -/
def mpTagFloat : RStr := [70, 108, 111, 97, 116]

/-- Variant name `"Int"` as bytes. -/
def mpTagInt : RStr := [73, 110, 116]

/-- Variant name `"String"` as bytes. -/
def mpTagString : RStr := [83, 116, 114, 105, 110, 103]

/-- A `StateType` value in `rmp_serde`'s externally-tagged enum
representation: a single-entry map `fixmap(1)` from the variant name to
the payload. -/
def encMpValue : StateType → List Nat
  | StateType.float bits => 129 :: (encMpStr mpTagFloat ++ encMpFloat bits)
  | StateType.int v => 129 :: (encMpStr mpTagInt ++ encMpInt v)
  | StateType.string s => 129 :: (encMpStr mpTagString ++ encMpStr s)

/-- Key/value pairs, in iteration order. -/
def encMpEntries : List (RStr × StateType) → List Nat
  | [] => []
  | (k, v) :: rest => encMpStr k ++ (encMpValue v ++ encMpEntries rest)

/-- MessagePack map header (fixmap / map16 / map32). -/
def mpMapHeader (n : Nat) : List Nat :=
  if n ≤ 15 then [128 + n]
  else if n < 65536 then 222 :: natBE 2 n
  else 223 :: natBE 4 n

/-- `rmp_serde::encode::write` of a `State` (the newtype struct is
transparent): the map header followed by the entries. -/
def rmpEncodeState (st : State) : List Nat :=
  mpMapHeader st.entries.length ++ encMpEntries st.entries

/-- MessagePack `str` decoding, mirroring `encMpStr`. -/
def parseMpStr : List Nat → Option (RStr × List Nat)
  | [] => none
  | b :: rest =>
    if 160 ≤ b ∧ b ≤ 191 then takeN (b - 160) rest
    else if b = 217 then
      match rest with
      | [] => none
      | len :: rest2 => takeN len rest2
    else if b = 218 then
      match takeN 2 rest with
      | some (lb, rest2) => takeN (beToNat lb) rest2
      | none => none
    else if b = 219 then
      match takeN 4 rest with
      | some (lb, rest2) => takeN (beToNat lb) rest2
      | none => none
    else none

/-- Two's-complement reading of a `w`-bit big-endian value. -/
def fromTwos (w : Nat) (n : Nat) : Int :=
  if n < 2 ^ (w - 1) then (n : Int) else (n : Int) - 2 ^ w

/-- MessagePack integer decoding into an `i64` (a `u64` payload above
`i64::MAX` is a deserialization error, as in `rmp_serde`). -/
def parseMpInt : List Nat → Option (Int × List Nat)
  | [] => none
  | b :: rest =>
    if b ≤ 127 then some ((b : Int), rest)
    else if 224 ≤ b ∧ b ≤ 255 then some ((b : Int) - 256, rest)
    else if b = 204 then (takeN 1 rest).map fun p => ((beToNat p.1 : Int), p.2)
    else if b = 205 then (takeN 2 rest).map fun p => ((beToNat p.1 : Int), p.2)
    else if b = 206 then (takeN 4 rest).map fun p => ((beToNat p.1 : Int), p.2)
    else if b = 207 then
      match takeN 8 rest with
      | some (nb, rest2) =>
        if beToNat nb < 2 ^ 63 then some ((beToNat nb : Int), rest2) else none
      | none => none
    else if b = 208 then (takeN 1 rest).map fun p => (fromTwos 8 (beToNat p.1), p.2)
    else if b = 209 then (takeN 2 rest).map fun p => (fromTwos 16 (beToNat p.1), p.2)
    else if b = 210 then (takeN 4 rest).map fun p => (fromTwos 32 (beToNat p.1), p.2)
    else if b = 211 then (takeN 8 rest).map fun p => (fromTwos 64 (beToNat p.1), p.2)
    else none

/-- MessagePack decoding of one `StateType` value (externally-tagged
single-entry map). -/
def parseMpValue : List Nat → Option (StateType × List Nat)
  | [] => none
  | b :: rest =>
    if b = 129 then
      match parseMpStr rest with
      | some (tag, rest2) =>
        if tag = mpTagFloat then
          match rest2 with
          | 203 :: rest3 =>
            match takeN 8 rest3 with
            | some (nb, rest4) => some (StateType.float (beToNat nb), rest4)
            | none => none
          | _ => none
        else if tag = mpTagInt then
          (parseMpInt rest2).map fun p => (StateType.int p.1, p.2)
        else if tag = mpTagString then
          (parseMpStr rest2).map fun p => (StateType.string p.1, p.2)
        else none
      | none => none
    else none

/-- Decode exactly `n` key/value pairs. -/
def parseMpEntries : Nat → List Nat → Option (List (RStr × StateType) × List Nat)
  | 0, bytes => some ([], bytes)
  | n + 1, bytes =>
    match parseMpStr bytes with
    | some (k, r1) =>
      match parseMpValue r1 with
      | some (v, r2) => (parseMpEntries n r2).map fun p => ((k, v) :: p.1, p.2)
      | none => none
    | none => none

/-- MessagePack map header decoding. -/
def parseMpMapHeader : List Nat → Option (Nat × List Nat)
  | [] => none
  | b :: rest =>
    if 128 ≤ b ∧ b ≤ 143 then some (b - 128, rest)
    else if b = 222 then (takeN 2 rest).map fun p => (beToNat p.1, p.2)
    else if b = 223 then (takeN 4 rest).map fun p => (beToNat p.1, p.2)
    else none

/-- `rmp_serde::from_read` of a `State`: decode one map value from the
front of the stream (trailing bytes are not an error for a stream read). -/
def rmpDecodeState (bytes : List Nat) : Option State :=
  match parseMpMapHeader bytes with
  | some (n, rest) =>
    match parseMpEntries n rest with
    | some (entries, _) => some { entries := entries }
    | none => none
  | none => none

/-- A byte that may appear in a YAML plain (unquoted) scalar in this
model: ASCII alphanumeric or `_`. -/
def plainByte (b : Nat) : Bool :=
  (48 ≤ b && b ≤ 57) || (65 ≤ b && b ≤ 90) || (97 ≤ b && b ≤ 122) || b == 95

/-- An ASCII letter or `_`. -/
def isAlphaByte (b : Nat) : Bool :=
  (65 ≤ b && b ≤ 90) || (97 ≤ b && b ≤ 122) || b == 95

/-- A string `serde_yaml` emits unquoted and resolves back as a string:
non-empty, a letter or `_` first, then alphanumeric or `_`. -/
def plainStr (s : RStr) : Bool :=
  match s with
  | [] => false
  | b :: rest => isAlphaByte b && rest.all plainByte

/-- Domain of the Rust representation: a finite (non-NaN, non-infinite)
`f64` bit pattern, an in-range `i64`, or a plain-scalar string. -/
def StateType.wf : StateType → Bool
  | StateType.float bits =>
    decide (bits < 2 ^ 64) && decide (bits / 2 ^ 52 % 2 ^ 11 ≠ 2047)
  | StateType.int v => decide (-(2 ^ 63) ≤ v) && decide (v < 2 ^ 63)
  | StateType.string s => plainStr s && decide (s.length < 2 ^ 32)

/-- Domain of a persisted `State`: well-formed entries, unique keys (a
`HashMap` cannot hold duplicates), sizes within `u32`. -/
def State.wf (st : State) : Bool :=
  st.entries.all (fun e => plainStr e.1 && (decide (e.1.length < 2 ^ 32) && e.2.wf)) &&
  (decide ((st.entries.map Prod.fst).Nodup) && decide (st.entries.length < 2 ^ 32))

/-- An ASCII decimal digit byte. -/
def isDigitByte (b : Nat) : Bool := 48 ≤ b && b ≤ 57

/-- Base-10 digits of `n`, most significant first (empty for 0). -/
def digitsBE (n : Nat) : List Nat := (Nat.digits 10 n).reverse

/-- Decimal rendering of a natural number as ASCII bytes. -/
def renderNat (n : Nat) : List Nat :=
  if n = 0 then [48] else (digitsBE n).map (· + 48)

/-- Value of a big-endian ASCII digit-byte list. -/
def parseDigits (ds : List Nat) : Nat := ds.foldl (fun a d => a * 10 + (d - 48)) 0

/-- Exactly `f` fraction digits of `x < 10^f`, zero-padded on the left. -/
def renderFracDigits (x f : Nat) : List Nat :=
  List.replicate (f - (digitsBE x).length) 48 ++ (digitsBE x).map (· + 48)

/-- Decimal rendering of an `i64`. -/
def renderIntPayload (v : Int) : List Nat :=
  (if v < 0 then [45] else []) ++ renderNat v.natAbs

/-- Parse the digit part of a decimal `i64` scalar (range-checked, as
serde does). -/
def parseIntTail (neg : Bool) (ds : List Nat) : Option Int :=
  if ds ≠ [] ∧ ds.all isDigitByte then
    let v : Int := if neg then -(parseDigits ds : Int) else (parseDigits ds : Int)
    if -(2 ^ 63) ≤ v ∧ v < 2 ^ 63 then some v else none
  else none

/-- Parse a decimal `i64` scalar. -/
def parseIntPayload (bytes : List Nat) : Option Int :=
  match bytes with
  | 45 :: ds => parseIntTail true ds
  | ds => parseIntTail false ds

/-- Trim trailing zero fraction digits of the fraction numerator `N`
(scale `k`, i.e. the fraction is `N / 10^k`), keeping at least one
fraction digit. -/
def trimFrac : Nat → Nat → Nat × Nat
  | n, 0 => (n, 0)
  | n, 1 => (n, 1)
  | n, k + 2 => if n % 10 = 0 then trimFrac (n / 10) (k + 1) else (n, k + 2)

/-- Normalize a dyadic representation `M * 2^E` of a non-zero value to
the canonical IEEE-754 binary64 mantissa/exponent pair (mantissa in
`[2^52, 2^53)` for normals, exponent pinned at `-1074` for subnormals),
failing when the value is not exactly representable. -/
def normShift : Nat → Nat → Int → Option (Nat × Int)
  | 0, _, _ => none
  | fuel + 1, m, e =>
    if m < 2 ^ 52 ∧ -1074 < e then normShift fuel (2 * m) (e - 1)
    else if 2 ^ 53 ≤ m then
      if m % 2 = 0 then normShift fuel (m / 2) (e + 1) else none
    else some (m, e)

/-- Pack a canonical sign/mantissa/exponent triple back into binary64
bits (zero is packed separately by the caller). -/
def packBits (sgn : Bool) (m : Nat) (e : Int) : Option Nat :=
  let sb := if sgn then 2 ^ 63 else 0
  if 2 ^ 52 ≤ m ∧ m < 2 ^ 53 ∧ 1 ≤ e + 1075 ∧ e + 1075 ≤ 2046 then
    some (sb + (e + 1075).toNat * 2 ^ 52 + (m - 2 ^ 52))
  else if m ≠ 0 ∧ m < 2 ^ 52 ∧ e = -1074 then
    some (sb + m)
  else none

/-- Fractional-case decimal body: the value is `mant * 2^(-k)`, written
exactly as `mant * 5^k / 10^k` with trailing fraction zeros trimmed. -/
def renderFloatFrac (mant k : Nat) : List Nat :=
  renderNat ((trimFrac (mant * 5 ^ k) k).1 / 10 ^ (trimFrac (mant * 5 ^ k) k).2) ++
    (46 :: renderFracDigits
      ((trimFrac (mant * 5 ^ k) k).1 % 10 ^ (trimFrac (mant * 5 ^ k) k).2)
      (trimFrac (mant * 5 ^ k) k).2)

/-- Decimal body of a finite float given its exponent and mantissa
fields: the exact decimal expansion of the value, trailing fraction
zeros trimmed, always with at least one integer and one fraction digit
(`75.0`, `0.5`, `0.0`).  A subnormal has value `m * 2^(-1074)`; a normal
has value `(2^52 + m) * 2^(e - 1075)`. -/
def renderFloatBody (e m : Nat) : List Nat :=
  if e = 0 ∧ m = 0 then [48, 46, 48]
  else if e = 0 then renderFloatFrac m 1074
  else if 1075 ≤ e then renderNat ((2 ^ 52 + m) * 2 ^ (e - 1075)) ++ [46, 48]
  else renderFloatFrac (2 ^ 52 + m) (1075 - e)

/-- Decimal rendering of a finite binary64 bit pattern: the sign bit as
a leading minus, then the body from the exponent and mantissa fields. -/
def renderFloatPayload (bits : Nat) : List Nat :=
  (if bits / 2 ^ 63 % 2 = 1 then [45] else []) ++
    renderFloatBody (bits / 2 ^ 52 % 2 ^ 11) (bits % 2 ^ 52)

/-- Recover the bit pattern denoting exactly the decimal value
`p / 10^f` with the given sign (failing when no such pattern exists). -/
def parseFloatVal (sgn : Bool) (p f : Nat) : Option Nat :=
  if p = 0 then some (if sgn then 2 ^ 63 else 0)
  else if p % 5 ^ f = 0 then
    match normShift 2200 (p / 5 ^ f) (-(f : Int)) with
    | some q => packBits sgn q.1 q.2
    | none => none
  else none

/-- Parse the unsigned part `digits.digits` of a decimal float scalar
back to the unique binary64 bit pattern denoting exactly that decimal
value with the given sign (failing when no such pattern exists). -/
def parseFloatTail (sgn : Bool) (body : List Nat) : Option Nat :=
  match body.dropWhile isDigitByte with
  | 46 :: fpds =>
    if body.takeWhile isDigitByte ≠ [] ∧ fpds ≠ [] ∧ fpds.all isDigitByte then
      parseFloatVal sgn
        (parseDigits (body.takeWhile isDigitByte) * 10 ^ fpds.length + parseDigits fpds)
        fpds.length
    else none
  | _ => none

/-- Parse a decimal float scalar of the form `[-]digits.digits`. -/
def parseFloatPayload (bytes : List Nat) : Option Nat :=
  match bytes with
  | 45 :: r => parseFloatTail true r
  | r => parseFloatTail false r

/-- One `StateType` value in `serde_yaml`'s tagged-scalar form:
`!Float 75.0`, `!Int 3`, `!String foo`. -/
def encYamlValue : StateType → List Nat
  | StateType.float bits => 33 :: (mpTagFloat ++ (32 :: renderFloatPayload bits))
  | StateType.int v => 33 :: (mpTagInt ++ (32 :: renderIntPayload v))
  | StateType.string s => 33 :: (mpTagString ++ (32 :: s))

/-- One block-mapping line `key: !Tag payload\n`. -/
def encYamlLine (e : RStr × StateType) : List Nat :=
  e.1 ++ (58 :: 32 :: encYamlValue e.2) ++ [10]

/-- `serde_yaml::to_writer` of a `State`: one line per entry in
iteration order; the empty mapping is the flow form `\x7b\x7d` plus a
newline. -/
def yamlEncodeState (st : State) : List Nat :=
  if st.entries = [] then [123, 125, 10]
  else (st.entries.map encYamlLine).flatten

/-- Split a byte stream into newline-terminated lines (every line must
be terminated). -/
def splitLinesAux : List Nat → List Nat → Option (List (List Nat))
  | acc, [] => if acc = [] then some [] else none
  | acc, b :: rest =>
    if b = 10 then (splitLinesAux [] rest).map (acc.reverse :: ·)
    else splitLinesAux (b :: acc) rest

/-- Lines of a byte stream. -/
def splitLines (bytes : List Nat) : Option (List (List Nat)) :=
  splitLinesAux [] bytes

/-- Any byte other than the `:` separator. -/
def notColon (b : Nat) : Bool := b != 58

/-- Any byte other than a space. -/
def notSpace (b : Nat) : Bool := b != 32

/-- Parse one `key: !Tag payload` line. -/
def parseYamlLine (line : List Nat) : Option (RStr × StateType) :=
  match line.dropWhile notColon with
  | 58 :: 32 :: 33 :: rest =>
    match rest.dropWhile notSpace with
    | 32 :: payload =>
      if rest.takeWhile notSpace = mpTagFloat then
        (parseFloatPayload payload).map fun bits =>
          (line.takeWhile notColon, StateType.float bits)
      else if rest.takeWhile notSpace = mpTagInt then
        (parseIntPayload payload).map fun v =>
          (line.takeWhile notColon, StateType.int v)
      else if rest.takeWhile notSpace = mpTagString then
        some (line.takeWhile notColon, StateType.string payload)
      else none
    | _ => none
  | _ => none

/-- Parse every line of the mapping. -/
def parseYamlLines : List (List Nat) → Option (List (RStr × StateType))
  | [] => some []
  | l :: rest =>
    match parseYamlLine l with
    | some e => (parseYamlLines rest).map (e :: ·)
    | none => none

/-- `serde_yaml::from_reader` of a `State`. -/
def yamlDecodeState (bytes : List Nat) : Option State :=
  if bytes = [123, 125, 10] then some { entries := [] }
  else
    match splitLines bytes with
    | some lines => (parseYamlLines lines).map fun es => { entries := es }
    | none => none

/-- `Asset::save` (`src/asset.rs:39-49`): encode with the type's backend
(the file write is the byte stream produced). -/
def Asset.save (backend : Backend) (st : State) : List Nat :=
  match backend with
  | Backend.messagePack => rmpEncodeState st
  | Backend.yaml => yamlEncodeState st

/-- `Asset::load` (`src/asset.rs:29-37`): decode with the same backend
constant the save path used. -/
def Asset.load (backend : Backend) (bytes : List Nat) : Option State :=
  match backend with
  | Backend.messagePack => rmpDecodeState bytes
  | Backend.yaml => yamlDecodeState bytes

/-! ## Theorems

Helper lemmas first, then one theorem per claim (with a witness where the
theorem carries hypotheses). -/

/-- A `resize` whose new dimensions have a non-zero `u32` product recreates
the depth texture and view at exactly those dimensions. -/
theorem resize_nonzero_depthMatches (ctx : GraphicsContext) (s : PhysicalSize)
    (h : wrapMul32 s.width s.height ≠ 0) :
    depthMatchesConfig (ctx.resize s).1 := by
  unfold GraphicsContext.resize
  simp only [h, ne_eq, not_false_eq_true, if_true, create_depth_texture]
  exact ⟨rfl, rfl, rfl⟩

/-- The final state of a `resize` sequence only depends on the state the
last call starts from; in particular appending one call composes. -/
theorem resizeSeq_append_last (ctx : GraphicsContext) (sizes : List PhysicalSize)
    (s : PhysicalSize) :
    (ctx.resizeSeq (sizes ++ [s])).1 = ((ctx.resizeSeq sizes).1.resize s).1 := by
  induction sizes generalizing ctx with
  | nil => simp [GraphicsContext.resizeSeq]
  | cons a rest ih => simp [GraphicsContext.resizeSeq, ih]

/-- C1 counterexample: the claimed invariant fails on the code.  Starting
from a context created at 800×600, the call `resize(0, 600)` (a minimized
window) updates the stored surface dimensions to 0×600 but — because the
rebuild is guarded by `width * height != 0` — leaves the depth texture at
800×600, so the depth attachment's dimensions do not equal the surface's
current dimensions after that mutating operation. -/
theorem c1_counterexample :
    ((GraphicsContext.new ⟨800, 600⟩).resize ⟨0, 600⟩).1.surface_config.width = 0 ∧
    ((GraphicsContext.new ⟨800, 600⟩).resize ⟨0, 600⟩).1.depth_texture.width = 800 ∧
    ¬ depthMatchesConfig ((GraphicsContext.new ⟨800, 600⟩).resize ⟨0, 600⟩).1 := by
  decide

/-- C1 (amended): after every `resize(w, h)` whose dimensions have a
non-zero `u32` product — in particular after the final `recreate(w,h)` of
any resize sequence whose last call has non-zero area — the depth
attachment (texture and view) has exactly the surface's current dimensions
`(w, h)`; the invariant holds after every surface-mutating operation
except a zero-area resize, which changes the stored dimensions without
rebuilding the depth attachment. -/
theorem c1_depth_matches_after_final_nonzero_resize
    (ctx : GraphicsContext) (sizes : List PhysicalSize) (s : PhysicalSize)
    (h : wrapMul32 s.width s.height ≠ 0) :
    depthMatchesConfig (ctx.resizeSeq (sizes ++ [s])).1 ∧
    (ctx.resizeSeq (sizes ++ [s])).1.surface_config.width = s.width ∧
    (ctx.resizeSeq (sizes ++ [s])).1.surface_config.height = s.height := by
  rw [resizeSeq_append_last]
  refine ⟨resize_nonzero_depthMatches _ _ h, ?_, ?_⟩ <;>
    · unfold GraphicsContext.resize
      simp only [h, ne_eq, not_false_eq_true, if_true]

/-- C1 witness: a concrete resize sequence `[0×0, 640×480]` ending in a
non-zero-area call, on a context created at 800×600. -/
theorem c1_witness :
    wrapMul32 (640 : Nat) 480 ≠ 0 ∧
    (depthMatchesConfig ((GraphicsContext.new ⟨800, 600⟩).resizeSeq
        ([⟨0, 0⟩] ++ [⟨640, 480⟩])).1 ∧
      ((GraphicsContext.new ⟨800, 600⟩).resizeSeq
        ([⟨0, 0⟩] ++ [⟨640, 480⟩])).1.surface_config.width = 640 ∧
      ((GraphicsContext.new ⟨800, 600⟩).resizeSeq
        ([⟨0, 0⟩] ++ [⟨640, 480⟩])).1.surface_config.height = 480) :=
  ⟨by decide,
   c1_depth_matches_after_final_nonzero_resize (GraphicsContext.new ⟨800, 600⟩)
     [⟨0, 0⟩] ⟨640, 480⟩ (by decide)⟩

/-- C4: on a non-zero-area surface, if the platform reports the surface
lost/outdated on the first acquisition attempt, `get_frame` reconfigures
the surface exactly once and retries exactly once (two attempts in total);
success on the retry yields a frame and failure on both attempts is the
fatal outcome (the `expect` panic standing for `SurfaceUnrecoverable`)
with no frame; and for every oracle whatsoever there are never more than
two acquisition attempts (never more than one retry). -/
theorem c4_surface_lost_reconfigure_retry_once
    (ctx : GraphicsContext) (acquireOk other : Nat → Bool)
    (harea : wrapMul32 ctx.surface_config.width ctx.surface_config.height ≠ 0)
    (hfail : acquireOk 0 = false) :
    countConfigures (ctx.get_frame acquireOk).2 = 1 ∧
    countAcquires (ctx.get_frame acquireOk).2 = 2 ∧
    ((ctx.get_frame acquireOk).1 = FrameResult.frame ↔ acquireOk 1 = true) ∧
    ((ctx.get_frame acquireOk).1 = FrameResult.fatal ↔ acquireOk 1 = false) ∧
    countAcquires (ctx.get_frame other).2 ≤ 2 := by
  unfold GraphicsContext.get_frame
  rw [if_neg harea, hfail]
  refine ⟨?_, ?_, ?_, ?_, ?_⟩
  · cases h1 : acquireOk 1 <;>
      simp [countConfigures]
  · cases h1 : acquireOk 1 <;>
      simp [countAcquires]
  · cases h1 : acquireOk 1 <;>
      simp [countAcquires]
  · cases h1 : acquireOk 1 <;>
      simp [countAcquires]
  · rw [if_neg harea]
    cases h0 : other 0 <;> cases h1 : other 1 <;>
      simp [countAcquires]

/-- C4 witness: an 800×600 surface whose first acquisition fails and whose
retry succeeds. -/
theorem c4_witness :
    let ctx := GraphicsContext.new ⟨800, 600⟩
    let acq : Nat → Bool := fun n => n != 0
    wrapMul32 ctx.surface_config.width ctx.surface_config.height ≠ 0 ∧
    acq 0 = false ∧
    (countConfigures (ctx.get_frame acq).2 = 1 ∧
     countAcquires (ctx.get_frame acq).2 = 2 ∧
     ((ctx.get_frame acq).1 = FrameResult.frame ↔ acq 1 = true) ∧
     ((ctx.get_frame acq).1 = FrameResult.fatal ↔ acq 1 = false) ∧
     countAcquires (ctx.get_frame (fun _ => false)).2 ≤ 2) :=
  ⟨by decide, by decide,
   c4_surface_lost_reconfigure_retry_once (GraphicsContext.new ⟨800, 600⟩)
     (fun n => n != 0) (fun _ => false) (by decide) (by decide)⟩

/-- C5: whenever the surface's stored dimensions have product zero (the
minimized-window state), `get_frame` returns `None` (the skip-frame
signal) and issues no GPU work at all — no acquisition attempt, no
reconfiguration, no submission. -/
theorem c5_zero_area_returns_none
    (ctx : GraphicsContext) (acquireOk : Nat → Bool)
    (h : ctx.surface_config.width * ctx.surface_config.height = 0) :
    (ctx.get_frame acquireOk).1 = FrameResult.skip ∧
    (ctx.get_frame acquireOk).2 = [] := by
  have hw : wrapMul32 ctx.surface_config.width ctx.surface_config.height = 0 := by
    rw [wrapMul32, h]; rfl
  unfold GraphicsContext.get_frame
  rw [if_pos hw]
  exact ⟨rfl, rfl⟩

/-- C5 witness: a context whose width is zero (minimized window). -/
theorem c5_witness :
    (GraphicsContext.new ⟨0, 600⟩).surface_config.width *
      (GraphicsContext.new ⟨0, 600⟩).surface_config.height = 0 ∧
    (((GraphicsContext.new ⟨0, 600⟩).get_frame (fun _ => true)).1 = FrameResult.skip ∧
     ((GraphicsContext.new ⟨0, 600⟩).get_frame (fun _ => true)).2 = []) :=
  ⟨by decide, c5_zero_area_returns_none (GraphicsContext.new ⟨0, 600⟩)
    (fun _ => true) (by decide)⟩

/-- C9: a `resize` whose new width×height product is zero changes only the
stored surface configuration's width and height: the device surface is not
reconfigured (the GPU effect log is empty, so no `configure` and no depth
creation happens) and the depth texture and depth texture view fields are
exactly the ones created for the previous configuration. -/
theorem c9_zero_area_resize_only_updates_config
    (ctx : GraphicsContext) (s : PhysicalSize)
    (h : s.width * s.height = 0) :
    (ctx.resize s).1 = { ctx with surface_config := { width := s.width, height := s.height } } ∧
    (ctx.resize s).2 = [] ∧
    (ctx.resize s).1.depth_texture = ctx.depth_texture ∧
    (ctx.resize s).1.depth_texture_view = ctx.depth_texture_view := by
  have hw : wrapMul32 s.width s.height = 0 := by
    rw [wrapMul32, h]; rfl
  unfold GraphicsContext.resize
  simp only [hw, ne_eq, not_true_eq_false, if_false]
  exact ⟨trivial, trivial, trivial, trivial⟩

/-- C9 witness: `resize(0, 300)` on a context created at 800×600. -/
theorem c9_witness :
    (0 : Nat) * 300 = 0 ∧
    (((GraphicsContext.new ⟨800, 600⟩).resize ⟨0, 300⟩).1 =
        { GraphicsContext.new ⟨800, 600⟩ with
            surface_config := { width := 0, height := 300 } } ∧
      ((GraphicsContext.new ⟨800, 600⟩).resize ⟨0, 300⟩).2 = [] ∧
      ((GraphicsContext.new ⟨800, 600⟩).resize ⟨0, 300⟩).1.depth_texture =
        (GraphicsContext.new ⟨800, 600⟩).depth_texture ∧
      ((GraphicsContext.new ⟨800, 600⟩).resize ⟨0, 300⟩).1.depth_texture_view =
        (GraphicsContext.new ⟨800, 600⟩).depth_texture_view) :=
  ⟨rfl, c9_zero_area_resize_only_updates_config (GraphicsContext.new ⟨800, 600⟩)
    ⟨0, 300⟩ rfl⟩

/-- C10: the zero-area test of `get_frame` is computed in wrapping 32-bit
unsigned arithmetic — the frame is skipped exactly when
`width * height ≡ 0 (mod 2^32)` — so at the non-zero dimensions
65536×65536 the product wraps to zero and the frame is skipped even though
the surface has non-zero area. -/
theorem c10_zero_area_test_wraps_mod_2_32 :
    (∀ (ctx : GraphicsContext) (acquireOk : Nat → Bool),
      (ctx.get_frame acquireOk).1 = FrameResult.skip ↔
        (ctx.surface_config.width * ctx.surface_config.height) % 4294967296 = 0) ∧
    (65536 * 65536 ≠ 0 ∧
     ((GraphicsContext.new ⟨65536, 65536⟩).get_frame (fun _ => true)).1 =
       FrameResult.skip) := by
  refine ⟨?_, by decide, by decide⟩
  intro ctx acquireOk
  unfold GraphicsContext.get_frame
  by_cases h : wrapMul32 ctx.surface_config.width ctx.surface_config.height = 0
  · rw [if_pos h]
    simpa [wrapMul32, U32MOD] using h
  · rw [if_neg h]
    constructor
    · intro hc
      by_cases h0 : acquireOk 0
      · rw [if_pos h0] at hc; simp at hc
      · rw [if_neg h0] at hc
        by_cases h1 : acquireOk 1
        · rw [if_pos h1] at hc; simp at hc
        · rw [if_neg h1] at hc; simp at hc
    · intro hc
      exact absurd (show wrapMul32 ctx.surface_config.width ctx.surface_config.height = 0
        by rw [wrapMul32, U32MOD]; exact hc) h

/-- Draining a queue of resize commands: each render-loop iteration applies
exactly one, so after one iteration per command the queue is empty and the
swapchain holds the dimensions of the last command. -/
theorem renderIterN_drains_resizes (sizes : List PhysicalSize) (s : PhysicalSize) :
    ∀ (st : RenderThreadState), st.panicked = false →
    renderIterN (sizes.length + 1) ((sizes ++ [s]).map GraphicsCommand.resizeSwapchain) st =
      ([], { ctx := { swapchainExtent := s, viewportExtent := s }, panicked := false }) := by
  induction sizes with
  | nil =>
    intro st hnp
    simp [renderIterN, renderIter, hnp, RenderContext.recreate_swapchain]
  | cons a rest ih =>
    intro st hnp
    have step : renderIter ((a :: (rest ++ [s])).map GraphicsCommand.resizeSwapchain) st =
        ((rest ++ [s]).map GraphicsCommand.resizeSwapchain,
         { st with ctx := st.ctx.recreate_swapchain a }) := by
      simp [renderIter, hnp]
    simp only [List.map_cons, List.length_cons]
    show renderIterN (rest.length + 1 + 1)
      (GraphicsCommand.resizeSwapchain a :: (rest ++ [s]).map GraphicsCommand.resizeSwapchain) st = _
    rw [show rest.length + 1 + 1 = (rest.length + 1) + 1 from rfl]
    unfold renderIterN
    rw [show renderIter (GraphicsCommand.resizeSwapchain a ::
          (rest ++ [s]).map GraphicsCommand.resizeSwapchain) st =
        ((rest ++ [s]).map GraphicsCommand.resizeSwapchain,
         { st with ctx := st.ctx.recreate_swapchain a }) by simp [renderIter, hnp]]
    exact ih _ hnp

/-- C3 counterexample: the claim fails on the code.  With the three resize
commands `[Resize(100,100), Resize(200,200), Resize(50,50)]` submitted
before a single redraw iteration of the render loop, that iteration
applies only the first command (the loop `try_recv`s at most one command
per iteration, FIFO), so the realized surface size after that redraw is
(100,100), not (50,50). -/
theorem c3_counterexample :
    let g0 := GraphicsSubsystem.new ⟨1280, 720⟩
    let g1 := (g0.run [SubsysOp.resizeWindow ⟨100, 100⟩,
      SubsysOp.resizeWindow ⟨200, 200⟩, SubsysOp.resizeWindow ⟨50, 50⟩,
      SubsysOp.renderStep]).1
    g1.render.ctx.swapchainExtent = ⟨100, 100⟩ ∧
    g1.render.ctx.swapchainExtent ≠ ⟨50, 50⟩ := by
  decide

/-- C3 (amended): resize delivery is first-in-first-out, one command per
render-loop iteration, not last-wins.  A single redraw iteration realizes
the dimensions of the *first* pending resize; the dimensions of the last
resize `(50,50)` are realized only after one iteration per pending command
(three iterations for the sequence of the claim), after which the queue is
drained. -/
theorem c3_resizes_are_fifo_one_per_iteration
    (st : RenderThreadState) (first s : PhysicalSize) (rest : List PhysicalSize)
    (hnp : st.panicked = false) :
    (renderIter ((first :: rest).map GraphicsCommand.resizeSwapchain) st).2.ctx.swapchainExtent
      = first ∧
    renderIterN ((first :: rest).length + 1)
        ((first :: rest ++ [s]).map GraphicsCommand.resizeSwapchain) st =
      ([], { ctx := { swapchainExtent := s, viewportExtent := s }, panicked := false }) := by
  constructor
  · simp [renderIter, hnp, RenderContext.recreate_swapchain]
  · exact renderIterN_drains_resizes (first :: rest) s st hnp

/-- C3 witness: the claim's own command sequence, on a fresh render thread
at 1280×720. -/
theorem c3_witness :
    let st := (GraphicsSubsystem.new ⟨1280, 720⟩).render
    st.panicked = false ∧
    ((renderIter (([⟨100, 100⟩, ⟨200, 200⟩] :
        List PhysicalSize).map GraphicsCommand.resizeSwapchain) st).2.ctx.swapchainExtent
      = ⟨100, 100⟩ ∧
    renderIterN (([⟨100, 100⟩, ⟨200, 200⟩] : List PhysicalSize).length + 1)
        (([⟨100, 100⟩, ⟨200, 200⟩, ⟨50, 50⟩] :
          List PhysicalSize).map GraphicsCommand.resizeSwapchain) st =
      ([], { ctx := { swapchainExtent := ⟨50, 50⟩, viewportExtent := ⟨50, 50⟩ },
             panicked := false })) :=
  ⟨rfl, c3_resizes_are_fifo_one_per_iteration
    (GraphicsSubsystem.new ⟨1280, 720⟩).render ⟨100, 100⟩ ⟨50, 50⟩ [⟨200, 200⟩] rfl⟩

/-- C2 counterexample: the claim fails on the code.  With the bounded
command queue full (16 buffered commands), `resize_window` does surface
the `try_send` failure as an error result — but the `Engine::run` event
callback reacts to that error by calling `elwt.exit()`, terminating the
event loop.  So a queue-full failure during a resize *does* terminate the
event loop, contradicting the claim's non-fatality. -/
theorem c2_counterexample :
    let g : GraphicsSubsystem :=
      { model_index := 0
        texture_index := 0
        queue := List.replicate 16 (GraphicsCommand.resizeSwapchain ⟨1, 1⟩)
        render := { ctx := { swapchainExtent := ⟨1280, 720⟩,
                             viewportExtent := ⟨1280, 720⟩ }, panicked := false } }
    let e : Engine := { graphics := g, scale_factor := 0, exited := false }
    (g.resize_window ⟨10, 10⟩).1 = Except.error SendError.full ∧
    (e.handleWindowEvent (EngWindowEvent.resized ⟨10, 10⟩)).exited = true := by
  exact ⟨rfl, rfl⟩

/-- C2 (amended): when the bounded command queue is full, `try_send`
failure is surfaced to the caller of `resize_window` / `load_model` /
`load_texture` as an error (busy) result, and at the subsystem level it is
non-fatal — the queue, the render thread and the sender remain intact, so
the caller may drop or retry the command (`load_model`/`load_texture`
merely consume a counter increment); however the `Engine::run` event-loop
callback treats a `resize_window` failure as fatal: it logs the error and
exits the event loop. -/
theorem c2_busy_surfaced_but_engine_exits
    (g : GraphicsSubsystem) (s : PhysicalSize) (bits : Nat)
    (hfull : EVENT_BUFFER_SIZE ≤ g.queue.length) :
    (g.resize_window s).1 = Except.error SendError.full ∧
    (g.resize_window s).2 = g ∧
    (g.load_model).1 = Except.error SendError.full ∧
    (g.load_model).2 = { g with model_index := g.model_index + 1 } ∧
    (g.load_texture).1 = Except.error SendError.full ∧
    (g.load_texture).2 = { g with texture_index := g.texture_index + 1 } ∧
    (Engine.handleWindowEvent { graphics := g, scale_factor := bits, exited := false }
        (EngWindowEvent.resized s)).exited = true := by
  have hnot : ¬ g.queue.length < EVENT_BUFFER_SIZE := Nat.not_lt.mpr hfull
  have hsend : ∀ cmd, syncChannelTrySend g.queue cmd = Except.error SendError.full := by
    intro cmd
    unfold syncChannelTrySend
    rw [if_neg hnot]
  refine ⟨?_, ?_, ?_, ?_, ?_, ?_, ?_⟩
  · simp [GraphicsSubsystem.resize_window, hsend]
  · simp [GraphicsSubsystem.resize_window, hsend]
  · simp [GraphicsSubsystem.load_model, hsend]
  · simp [GraphicsSubsystem.load_model, hsend]
  · simp [GraphicsSubsystem.load_texture, hsend]
  · simp [GraphicsSubsystem.load_texture, hsend]
  · simp [Engine.handleWindowEvent, GraphicsSubsystem.resize_window, hsend]

/-- C2 witness: a queue holding 16 buffered commands (the channel bound)
and a resize event arriving in that state. -/
theorem c2_witness :
    let g : GraphicsSubsystem :=
      { model_index := 0
        texture_index := 0
        queue := List.replicate 16 (GraphicsCommand.resizeSwapchain ⟨1, 1⟩)
        render := { ctx := { swapchainExtent := ⟨1280, 720⟩,
                             viewportExtent := ⟨1280, 720⟩ }, panicked := false } }
    EVENT_BUFFER_SIZE ≤ g.queue.length ∧
    ((g.resize_window ⟨10, 10⟩).1 = Except.error SendError.full ∧
     (g.resize_window ⟨10, 10⟩).2 = g ∧
     (g.load_model).1 = Except.error SendError.full ∧
     (g.load_model).2 = { g with model_index := g.model_index + 1 } ∧
     (g.load_texture).1 = Except.error SendError.full ∧
     (g.load_texture).2 = { g with texture_index := g.texture_index + 1 } ∧
     (Engine.handleWindowEvent { graphics := g, scale_factor := 7, exited := false }
         (EngWindowEvent.resized ⟨10, 10⟩)).exited = true) :=
  ⟨by decide,
   c2_busy_surfaced_but_engine_exits _ ⟨10, 10⟩ 7 (by decide)⟩

/-- Every step either returns the freshly incremented model id, or returns
no model id at all; in both cases the counter never decreases (it grows by
exactly one on a `loadModel` step and is unchanged otherwise). -/
theorem step_model_id_cases (g : GraphicsSubsystem) (op : SubsysOp) :
    ((g.step op).2 = SubsysEv.modelId (g.model_index + 1) ∧
      (g.step op).1.model_index = g.model_index + 1) ∨
    ((∀ i, (g.step op).2 ≠ SubsysEv.modelId i) ∧
      ((g.step op).1.model_index = g.model_index ∨
       (g.step op).1.model_index = g.model_index + 1)) := by
  cases op with
  | loadModel =>
    by_cases hq : g.queue.length < EVENT_BUFFER_SIZE
    · exact Or.inl (by
        constructor <;>
          simp [GraphicsSubsystem.step, GraphicsSubsystem.load_model,
            syncChannelTrySend, hq])
    · exact Or.inr (by
        constructor
        · intro i
          simp [GraphicsSubsystem.step, GraphicsSubsystem.load_model,
            syncChannelTrySend, hq]
        · right
          simp [GraphicsSubsystem.step, GraphicsSubsystem.load_model,
            syncChannelTrySend, hq])
  | loadTexture =>
    refine Or.inr ⟨?_, Or.inl ?_⟩ <;>
      · by_cases hq : g.queue.length < EVENT_BUFFER_SIZE <;>
          simp [GraphicsSubsystem.step, GraphicsSubsystem.load_texture,
            syncChannelTrySend, hq]
  | resizeWindow size =>
    refine Or.inr ⟨?_, Or.inl ?_⟩ <;>
      · by_cases hq : g.queue.length < EVENT_BUFFER_SIZE <;>
          simp [GraphicsSubsystem.step, GraphicsSubsystem.resize_window,
            syncChannelTrySend, hq]
  | renderStep =>
    refine Or.inr ⟨?_, Or.inl ?_⟩ <;>
      simp [GraphicsSubsystem.step]

/-- Mirror of `step_model_id_cases` for texture identifiers. -/
theorem step_texture_id_cases (g : GraphicsSubsystem) (op : SubsysOp) :
    ((g.step op).2 = SubsysEv.textureId (g.texture_index + 1) ∧
      (g.step op).1.texture_index = g.texture_index + 1) ∨
    ((∀ i, (g.step op).2 ≠ SubsysEv.textureId i) ∧
      ((g.step op).1.texture_index = g.texture_index ∨
       (g.step op).1.texture_index = g.texture_index + 1)) := by
  cases op with
  | loadTexture =>
    by_cases hq : g.queue.length < EVENT_BUFFER_SIZE
    · exact Or.inl (by
        constructor <;>
          simp [GraphicsSubsystem.step, GraphicsSubsystem.load_texture,
            syncChannelTrySend, hq])
    · exact Or.inr (by
        constructor
        · intro i
          simp [GraphicsSubsystem.step, GraphicsSubsystem.load_texture,
            syncChannelTrySend, hq]
        · right
          simp [GraphicsSubsystem.step, GraphicsSubsystem.load_texture,
            syncChannelTrySend, hq])
  | loadModel =>
    refine Or.inr ⟨?_, Or.inl ?_⟩ <;>
      · by_cases hq : g.queue.length < EVENT_BUFFER_SIZE <;>
          simp [GraphicsSubsystem.step, GraphicsSubsystem.load_model,
            syncChannelTrySend, hq]
  | resizeWindow size =>
    refine Or.inr ⟨?_, Or.inl ?_⟩ <;>
      · by_cases hq : g.queue.length < EVENT_BUFFER_SIZE <;>
          simp [GraphicsSubsystem.step, GraphicsSubsystem.resize_window,
            syncChannelTrySend, hq]
  | renderStep =>
    refine Or.inr ⟨?_, Or.inl ?_⟩ <;>
      simp [GraphicsSubsystem.step]

/-- The model counter never decreases along a run. -/
theorem run_model_index_le (ops : List SubsysOp) :
    ∀ g : GraphicsSubsystem, g.model_index ≤ (g.run ops).1.model_index := by
  induction ops with
  | nil => intro g; simp [GraphicsSubsystem.run]
  | cons op rest ih =>
    intro g
    have h1 : g.model_index ≤ (g.step op).1.model_index := by
      rcases step_model_id_cases g op with ⟨_, h⟩ | ⟨_, h | h⟩ <;> omega
    have h2 := ih (g.step op).1
    simp only [GraphicsSubsystem.run]
    omega

/-- The texture counter never decreases along a run. -/
theorem run_texture_index_le (ops : List SubsysOp) :
    ∀ g : GraphicsSubsystem, g.texture_index ≤ (g.run ops).1.texture_index := by
  induction ops with
  | nil => intro g; simp [GraphicsSubsystem.run]
  | cons op rest ih =>
    intro g
    have h1 : g.texture_index ≤ (g.step op).1.texture_index := by
      rcases step_texture_id_cases g op with ⟨_, h⟩ | ⟨_, h | h⟩ <;> omega
    have h2 := ih (g.step op).1
    simp only [GraphicsSubsystem.run]
    omega

theorem modelIdsOf_cons_id (i : Nat) (evs : List SubsysEv) :
    modelIdsOf (SubsysEv.modelId i :: evs) = i :: modelIdsOf evs := by
  simp [modelIdsOf]

theorem modelIdsOf_cons_ne (ev : SubsysEv) (evs : List SubsysEv)
    (h : ∀ i, ev ≠ SubsysEv.modelId i) :
    modelIdsOf (ev :: evs) = modelIdsOf evs := by
  cases ev with
  | modelId i => exact absurd rfl (h i)
  | _ => simp [modelIdsOf]

theorem textureIdsOf_cons_id (i : Nat) (evs : List SubsysEv) :
    textureIdsOf (SubsysEv.textureId i :: evs) = i :: textureIdsOf evs := by
  simp [textureIdsOf]

theorem textureIdsOf_cons_ne (ev : SubsysEv) (evs : List SubsysEv)
    (h : ∀ i, ev ≠ SubsysEv.textureId i) :
    textureIdsOf (ev :: evs) = textureIdsOf evs := by
  cases ev with
  | textureId i => exact absurd rfl (h i)
  | _ => simp [textureIdsOf]

/-- The model ids a run hands out are drawn, in order and without
repetition, from the counter values `g.model_index + 1, g.model_index + 2, …`
up to the final counter value. -/
theorem run_modelIds_sublist (ops : List SubsysOp) :
    ∀ g : GraphicsSubsystem,
    List.Sublist (modelIdsOf (g.run ops).2)
      (List.range' (g.model_index + 1) ((g.run ops).1.model_index - g.model_index)) := by
  induction ops with
  | nil => intro g; simp [GraphicsSubsystem.run, modelIdsOf]
  | cons op rest ih =>
    intro g
    have hrun2 : (g.run (op :: rest)).2 = (g.step op).2 :: ((g.step op).1.run rest).2 := by
      simp [GraphicsSubsystem.run]
    have hrun1 : (g.run (op :: rest)).1 = ((g.step op).1.run rest).1 := by
      simp [GraphicsSubsystem.run]
    have hmono := run_model_index_le rest (g.step op).1
    have ihg := ih (g.step op).1
    rcases step_model_id_cases g op with ⟨hev, hidx⟩ | ⟨hnev, hidx⟩
    · rw [hrun2, hrun1, hev, modelIdsOf_cons_id]
      rw [hidx] at hmono ihg
      have harith : ((g.step op).1.run rest).1.model_index - g.model_index =
          (((g.step op).1.run rest).1.model_index - (g.model_index + 1)) + 1 := by omega
      rw [harith, List.range'_succ]
      exact List.Sublist.cons₂ _ ihg
    · rw [hrun2, hrun1, modelIdsOf_cons_ne _ _ hnev]
      rcases hidx with hidx | hidx
      · rw [hidx] at ihg
        exact ihg
      · rw [hidx] at hmono ihg
        have harith : ((g.step op).1.run rest).1.model_index - g.model_index =
            (((g.step op).1.run rest).1.model_index - (g.model_index + 1)) + 1 := by omega
        rw [harith, List.range'_succ]
        exact List.Sublist.cons _ ihg

/-- Mirror of `run_modelIds_sublist` for texture identifiers. -/
theorem run_textureIds_sublist (ops : List SubsysOp) :
    ∀ g : GraphicsSubsystem,
    List.Sublist (textureIdsOf (g.run ops).2)
      (List.range' (g.texture_index + 1) ((g.run ops).1.texture_index - g.texture_index)) := by
  induction ops with
  | nil => intro g; simp [GraphicsSubsystem.run, textureIdsOf]
  | cons op rest ih =>
    intro g
    have hrun2 : (g.run (op :: rest)).2 = (g.step op).2 :: ((g.step op).1.run rest).2 := by
      simp [GraphicsSubsystem.run]
    have hrun1 : (g.run (op :: rest)).1 = ((g.step op).1.run rest).1 := by
      simp [GraphicsSubsystem.run]
    have hmono := run_texture_index_le rest (g.step op).1
    have ihg := ih (g.step op).1
    rcases step_texture_id_cases g op with ⟨hev, hidx⟩ | ⟨hnev, hidx⟩
    · rw [hrun2, hrun1, hev, textureIdsOf_cons_id]
      rw [hidx] at hmono ihg
      have harith : ((g.step op).1.run rest).1.texture_index - g.texture_index =
          (((g.step op).1.run rest).1.texture_index - (g.texture_index + 1)) + 1 := by omega
      rw [harith, List.range'_succ]
      exact List.Sublist.cons₂ _ ihg
    · rw [hrun2, hrun1, textureIdsOf_cons_ne _ _ hnev]
      rcases hidx with hidx | hidx
      · rw [hidx] at ihg
        exact ihg
      · rw [hidx] at hmono ihg
        have harith : ((g.step op).1.run rest).1.texture_index - g.texture_index =
            (((g.step op).1.run rest).1.texture_index - (g.texture_index + 1)) + 1 := by omega
        rw [harith, List.range'_succ]
        exact List.Sublist.cons _ ihg

/-- C6: over every interleaving of `load_model`/`load_texture`/
`resize_window` calls and render-loop iterations on a freshly created
subsystem, the model identifiers handed back to callers are strictly
increasing (hence never repeat), are never the sentinel zero, and are
drawn in order from `1, 2, 3, …` (the run's final counter value bounding
them) — so in particular the sequence starts at 1; likewise for texture
identifiers. -/
theorem c6_identifiers_monotone_and_nonzero (window : PhysicalSize) (ops : List SubsysOp) :
    List.Chain' (· < ·) (modelIdsOf (((GraphicsSubsystem.new window).run ops)).2) ∧
    (∀ i ∈ modelIdsOf (((GraphicsSubsystem.new window).run ops)).2, i ≠ 0) ∧
    List.Sublist (modelIdsOf (((GraphicsSubsystem.new window).run ops)).2)
      (List.range' 1 (((GraphicsSubsystem.new window).run ops)).1.model_index) ∧
    List.Chain' (· < ·) (textureIdsOf (((GraphicsSubsystem.new window).run ops)).2) ∧
    (∀ i ∈ textureIdsOf (((GraphicsSubsystem.new window).run ops)).2, i ≠ 0) ∧
    List.Sublist (textureIdsOf (((GraphicsSubsystem.new window).run ops)).2)
      (List.range' 1 (((GraphicsSubsystem.new window).run ops)).1.texture_index) := by
  have hm := run_modelIds_sublist ops (GraphicsSubsystem.new window)
  have ht := run_textureIds_sublist ops (GraphicsSubsystem.new window)
  have hm0 : (GraphicsSubsystem.new window).model_index = 0 := rfl
  have ht0 : (GraphicsSubsystem.new window).texture_index = 0 := rfl
  rw [hm0] at hm
  rw [ht0] at ht
  simp only [Nat.zero_add, Nat.sub_zero] at hm ht
  refine ⟨?_, ?_, hm, ?_, ?_, ht⟩
  · exact (List.Pairwise.sublist hm (List.pairwise_lt_range' 1 _)).chain'
  · intro i hi
    have := List.mem_range'_1.mp (hm.subset hi)
    omega
  · exact (List.Pairwise.sublist ht (List.pairwise_lt_range' 1 _)).chain'
  · intro i hi
    have := List.mem_range'_1.mp (ht.subset hi)
    omega

/-- C8: for a geometry container holding one triangle-mode primitive with
3 positions, 3 colors and 3 16-bit indices, followed by a non-triangle
primitive, `Mesh::load` succeeds and the imported mesh has exactly those 3
positions, 3 colors and 3 indices (`index_count = 3`); the non-triangle
primitive contributes nothing and produces exactly one warning, not an
error. -/
theorem c8_triangle_plus_nontriangle_import
    (p1 p2 p3 q1 q2 q3 : Vec3F) (i1 i2 i3 : Nat)
    (h1 : i1 < U16MOD) (h2 : i2 < U16MOD) (h3 : i3 < U16MOD)
    (other : GltfPrimitive) (hother : other.mode ≠ GltfMode.triangles) :
    Mesh.load
      { scenes := [[{ mesh := some (
          [{ mode := GltfMode.triangles
             positions := some [p1, p2, p3]
             colors := some [q1, q2, q3]
             indices := some (GltfIndices.u16 [i1, i2, i3]) },
           other]) }]] } =
      { positions := [p1, p2, p3]
        colors := [q1, q2, q3]
        indices := [i1, i2, i3]
        index_count := 3
        warnings := [MeshWarning.nonTriangleGeometry] } := by
  have e1 : i1 % U16MOD = i1 := Nat.mod_eq_of_lt h1
  have e2 : i2 % U16MOD = i2 := Nat.mod_eq_of_lt h2
  have e3 : i3 % U16MOD = i3 := Nat.mod_eq_of_lt h3
  simp [Mesh.load, meshLoadNode, meshLoadPrimitive, hother, e1, e2, e3]

/-- C8 witness: concrete vertex data and a points-mode second primitive. -/
theorem c8_witness :
    (0 : Nat) < U16MOD ∧ (1 : Nat) < U16MOD ∧ (2 : Nat) < U16MOD ∧
    (GltfPrimitive.mode
        { mode := GltfMode.points, positions := none, colors := none, indices := none }
      ≠ GltfMode.triangles) ∧
    Mesh.load
      { scenes := [[{ mesh := some (
          [{ mode := GltfMode.triangles
             positions := some [⟨1, 2, 3⟩, ⟨4, 5, 6⟩, ⟨7, 8, 9⟩]
             colors := some [⟨10, 0, 0⟩, ⟨0, 10, 0⟩, ⟨0, 0, 10⟩]
             indices := some (GltfIndices.u16 [0, 1, 2]) },
           { mode := GltfMode.points, positions := none, colors := none,
             indices := none }]) }]] } =
      { positions := [⟨1, 2, 3⟩, ⟨4, 5, 6⟩, ⟨7, 8, 9⟩]
        colors := [⟨10, 0, 0⟩, ⟨0, 10, 0⟩, ⟨0, 0, 10⟩]
        indices := [0, 1, 2]
        index_count := 3
        warnings := [MeshWarning.nonTriangleGeometry] } :=
  ⟨by decide, by decide, by decide, by decide,
   c8_triangle_plus_nontriangle_import ⟨1, 2, 3⟩ ⟨4, 5, 6⟩ ⟨7, 8, 9⟩
     ⟨10, 0, 0⟩ ⟨0, 10, 0⟩ ⟨0, 0, 10⟩ 0 1 2 (by decide) (by decide) (by decide)
     { mode := GltfMode.points, positions := none, colors := none, indices := none }
     (by decide)⟩

/-! ### MessagePack round-trip lemmas -/

theorem natBE_length (k : Nat) : ∀ n, (natBE k n).length = k := by
  induction k with
  | zero => intro n; rfl
  | succ k ih => intro n; simp [natBE, ih]

theorem beToNat_append_singleton (l : List Nat) (b : Nat) :
    beToNat (l ++ [b]) = beToNat l * 256 + b := by
  simp [beToNat, List.foldl_append]

theorem beToNat_natBE (k : Nat) : ∀ n, n < 256 ^ k → beToNat (natBE k n) = n := by
  induction k with
  | zero =>
    intro n hn
    interval_cases n
    rfl
  | succ k ih =>
    intro n hn
    have hdiv : n / 256 < 256 ^ k := by
      have hpow : 256 ^ (k + 1) = 256 * 256 ^ k := by ring
      exact Nat.div_lt_of_lt_mul (hpow ▸ hn)
    calc beToNat (natBE (k + 1) n)
        = beToNat (natBE k (n / 256) ++ [n % 256]) := rfl
      _ = beToNat (natBE k (n / 256)) * 256 + n % 256 := beToNat_append_singleton _ _
      _ = n / 256 * 256 + n % 256 := by rw [ih _ hdiv]
      _ = n := by omega

theorem takeN_append (xs : List Nat) : ∀ (rest : List Nat),
    takeN xs.length (xs ++ rest) = some (xs, rest) := by
  induction xs with
  | nil => intro rest; rfl
  | cons b t ih => intro rest; simp [takeN, ih]

theorem parseMpStr_enc (s : RStr) (hlen : s.length < 2 ^ 32) (rest : List Nat) :
    parseMpStr (encMpStr s ++ rest) = some (s, rest) := by
  unfold encMpStr
  split_ifs with h1 h2 h3
  · have : (160 + s.length) - 160 = s.length := by omega
    simp only [List.cons_append, parseMpStr]
    rw [if_pos (by omega), this, takeN_append]
  · simp only [List.cons_append, parseMpStr]
    rw [if_neg (by omega), if_pos trivial, takeN_append]
  · simp only [List.cons_append, List.append_assoc, parseMpStr]
    rw [if_neg (by omega), if_neg (by omega), if_pos trivial]
    have hl2 : (natBE 2 s.length).length = 2 := natBE_length 2 _
    have ht := takeN_append (natBE 2 s.length) (s ++ rest)
    rw [hl2] at ht
    rw [ht]
    show takeN (beToNat (natBE 2 (List.length s))) (s ++ rest) = some (s, rest)
    rw [beToNat_natBE 2 _ (by norm_num; omega)]
    exact takeN_append s rest
  · simp only [List.cons_append, List.append_assoc, parseMpStr]
    rw [if_neg (by omega), if_neg (by omega), if_neg (by omega), if_pos trivial]
    have hl4 : (natBE 4 s.length).length = 4 := natBE_length 4 _
    have ht := takeN_append (natBE 4 s.length) (s ++ rest)
    rw [hl4] at ht
    rw [ht]
    show takeN (beToNat (natBE 4 (List.length s))) (s ++ rest) = some (s, rest)
    rw [beToNat_natBE 4 _ (by norm_num; omega)]
    exact takeN_append s rest

theorem beToNat_singleton (b : Nat) : beToNat [b] = b := by
  simp [beToNat]

theorem parseMpInt_enc (v : Int) (hlo : -(2 ^ 63) ≤ v) (hhi : v < 2 ^ 63)
    (rest : List Nat) : parseMpInt (encMpInt v ++ rest) = some (v, rest) := by
  unfold encMpInt
  split_ifs with h0 h1 h2 h3 h4 h5 h6 h7 h8
  · -- positive fixint
    simp only [List.singleton_append, parseMpInt]
    rw [if_pos (by omega)]
    exact congrArg some (Prod.ext (by simp; omega) rfl)
  · -- u8
    simp only [List.cons_append, List.singleton_append, parseMpInt]
    rw [if_neg (by decide), if_neg (by decide), if_pos trivial]
    have hl := takeN_append [v.toNat] rest
    simp only [List.length_singleton, List.singleton_append] at hl
    simp only [List.nil_append]
    rw [hl]
    simp only [Option.map_some', beToNat_singleton]
    exact congrArg some (Prod.ext (by simp; omega) rfl)
  · -- u16
    simp only [List.cons_append, parseMpInt]
    rw [if_neg (by decide), if_neg (by decide), if_neg (by decide), if_pos trivial]
    have hl := takeN_append (natBE 2 v.toNat) rest
    rw [natBE_length] at hl
    rw [hl]
    simp only [Option.map_some']
    rw [beToNat_natBE 2 _ (by norm_num; omega)]
    exact congrArg some (Prod.ext (by simp; omega) rfl)
  · -- u32
    simp only [List.cons_append, parseMpInt]
    rw [if_neg (by decide), if_neg (by decide), if_neg (by decide),
      if_neg (by decide), if_pos trivial]
    have hl := takeN_append (natBE 4 v.toNat) rest
    rw [natBE_length] at hl
    rw [hl]
    simp only [Option.map_some']
    rw [beToNat_natBE 4 _ (by norm_num; omega)]
    exact congrArg some (Prod.ext (by simp; omega) rfl)
  · -- u64
    simp only [List.cons_append, parseMpInt]
    rw [if_neg (by decide), if_neg (by decide), if_neg (by decide),
      if_neg (by decide), if_neg (by decide), if_pos trivial]
    have hl := takeN_append (natBE 8 v.toNat) rest
    rw [natBE_length] at hl
    rw [hl]
    show (if beToNat (natBE 8 v.toNat) < 2 ^ 63 then
        some ((beToNat (natBE 8 v.toNat) : Int), rest) else none) = some (v, rest)
    rw [beToNat_natBE 8 _ (by norm_num; omega), if_pos (by omega)]
    exact congrArg some (Prod.ext (by simp; omega) rfl)
  · -- negative fixint
    simp only [List.singleton_append, parseMpInt]
    rw [if_neg (by omega), if_pos (by omega)]
    exact congrArg some (Prod.ext (by simp; omega) rfl)
  · -- i8
    simp only [List.cons_append, List.singleton_append, parseMpInt]
    rw [if_neg (by decide), if_neg (by decide), if_neg (by decide),
      if_neg (by decide), if_neg (by decide), if_neg (by decide), if_pos trivial]
    have hl := takeN_append [(v + 256).toNat] rest
    simp only [List.length_singleton, List.singleton_append] at hl
    simp only [List.nil_append]
    rw [hl]
    simp only [Option.map_some', beToNat_singleton, fromTwos]
    rw [if_neg (by norm_num; omega)]
    exact congrArg some (Prod.ext (by norm_num; omega) rfl)
  · -- i16
    simp only [List.cons_append, parseMpInt]
    rw [if_neg (by decide), if_neg (by decide), if_neg (by decide),
      if_neg (by decide), if_neg (by decide), if_neg (by decide),
      if_neg (by decide), if_pos trivial]
    have hl := takeN_append (natBE 2 (v + 65536).toNat) rest
    rw [natBE_length] at hl
    rw [hl]
    simp only [Option.map_some']
    rw [beToNat_natBE 2 _ (by norm_num; omega)]
    simp only [fromTwos]
    rw [if_neg (by norm_num; omega)]
    exact congrArg some (Prod.ext (by norm_num; omega) rfl)
  · -- i32
    simp only [List.cons_append, parseMpInt]
    rw [if_neg (by decide), if_neg (by decide), if_neg (by decide),
      if_neg (by decide), if_neg (by decide), if_neg (by decide),
      if_neg (by decide), if_neg (by decide), if_pos trivial]
    have hl := takeN_append (natBE 4 (v + 4294967296).toNat) rest
    rw [natBE_length] at hl
    rw [hl]
    simp only [Option.map_some']
    rw [beToNat_natBE 4 _ (by norm_num; omega)]
    simp only [fromTwos]
    rw [if_neg (by norm_num; omega)]
    exact congrArg some (Prod.ext (by norm_num; omega) rfl)
  · -- i64
    simp only [List.cons_append, parseMpInt]
    rw [if_neg (by decide), if_neg (by decide), if_neg (by decide),
      if_neg (by decide), if_neg (by decide), if_neg (by decide),
      if_neg (by decide), if_neg (by decide), if_neg (by decide), if_pos trivial]
    have hl := takeN_append (natBE 8 (v + 18446744073709551616).toNat) rest
    rw [natBE_length] at hl
    rw [hl]
    simp only [Option.map_some']
    rw [beToNat_natBE 8 _ (by norm_num; omega)]
    simp only [fromTwos]
    rw [if_neg (by norm_num; omega)]
    exact congrArg some (Prod.ext (by norm_num; omega) rfl)

theorem parseMpValue_enc (v : StateType) (hwf : v.wf = true) (rest : List Nat) :
    parseMpValue (encMpValue v ++ rest) = some (v, rest) := by
  cases v with
  | float bits =>
    have h64 : bits < 2 ^ 64 := by
      simp only [StateType.wf, Bool.and_eq_true, decide_eq_true_eq] at hwf
      exact hwf.1
    simp only [encMpValue, encMpFloat, List.cons_append, List.append_assoc]
    simp only [parseMpValue]
    rw [if_pos trivial, parseMpStr_enc _ (by decide)]
    show (if mpTagFloat = mpTagFloat then _ else _) = _
    rw [if_pos rfl]
    simp only [List.cons_append]
    have hl := takeN_append (natBE 8 bits) rest
    rw [natBE_length] at hl
    rw [hl]
    show some (StateType.float (beToNat (natBE 8 bits)), rest) = _
    rw [beToNat_natBE 8 _ (by norm_num; omega)]
  | int w =>
    have hrange : -(2 ^ 63) ≤ w ∧ w < 2 ^ 63 := by
      simp only [StateType.wf, Bool.and_eq_true, decide_eq_true_eq] at hwf
      exact hwf
    simp only [encMpValue, List.cons_append, List.append_assoc]
    simp only [parseMpValue]
    rw [if_pos trivial, parseMpStr_enc _ (by decide)]
    show (if mpTagInt = mpTagFloat then _ else _) = _
    rw [if_neg (by decide), if_pos rfl, parseMpInt_enc w hrange.1 hrange.2]
    rfl
  | string s =>
    have hs : s.length < 2 ^ 32 := by
      simp only [StateType.wf, Bool.and_eq_true, decide_eq_true_eq] at hwf
      exact hwf.2
    simp only [encMpValue, List.cons_append, List.append_assoc]
    simp only [parseMpValue]
    rw [if_pos trivial, parseMpStr_enc _ (by decide)]
    show (if mpTagString = mpTagFloat then _ else _) = _
    rw [if_neg (by decide), if_neg (by decide), if_pos rfl, parseMpStr_enc _ hs]
    rfl

theorem parseMpEntries_enc (l : List (RStr × StateType))
    (hwf : ∀ e ∈ l, e.1.length < 2 ^ 32 ∧ e.2.wf = true) :
    ∀ rest, parseMpEntries l.length (encMpEntries l ++ rest) = some (l, rest) := by
  induction l with
  | nil => intro rest; rfl
  | cons e t ih =>
    obtain ⟨k, v⟩ := e
    intro rest
    have hk : k.length < 2 ^ 32 := (hwf (k, v) (List.mem_cons_self _ _)).1
    have hv : v.wf = true := (hwf (k, v) (List.mem_cons_self _ _)).2
    have iht := ih (fun x hx => hwf x (List.mem_cons_of_mem _ hx)) rest
    simp only [encMpEntries, List.length_cons, List.append_assoc, parseMpEntries]
    rw [parseMpStr_enc _ hk]
    show (match parseMpValue (encMpValue v ++ (encMpEntries t ++ rest)) with
      | some (w, r2) =>
        (parseMpEntries t.length r2).map fun p => ((k, w) :: p.1, p.2)
      | none => none) = some ((k, v) :: t, rest)
    rw [parseMpValue_enc _ hv]
    show (parseMpEntries t.length (encMpEntries t ++ rest)).map
      (fun p => ((k, v) :: p.1, p.2)) = some ((k, v) :: t, rest)
    rw [iht]
    rfl

theorem parseMpMapHeader_enc (n : Nat) (hn : n < 2 ^ 32) (rest : List Nat) :
    parseMpMapHeader (mpMapHeader n ++ rest) = some (n, rest) := by
  unfold mpMapHeader
  split_ifs with h1 h2
  · simp only [List.singleton_append, parseMpMapHeader]
    rw [if_pos (by omega)]
    exact congrArg some (Prod.ext (by omega) rfl)
  · simp only [List.cons_append, parseMpMapHeader]
    rw [if_neg (by omega), if_pos trivial]
    have hl := takeN_append (natBE 2 n) rest
    rw [natBE_length] at hl
    rw [hl]
    simp only [Option.map_some']
    rw [beToNat_natBE 2 _ (by norm_num; omega)]
  · simp only [List.cons_append, parseMpMapHeader]
    rw [if_neg (by omega), if_neg (by omega), if_pos trivial]
    have hl := takeN_append (natBE 4 n) rest
    rw [natBE_length] at hl
    rw [hl]
    simp only [Option.map_some']
    rw [beToNat_natBE 4 _ (by norm_num; omega)]

/-- Unpack the entry-level facts of `State.wf`. -/
theorem State.wf_entries (st : State) (hwf : st.wf = true) :
    (∀ e ∈ st.entries, plainStr e.1 = true ∧ e.1.length < 2 ^ 32 ∧ e.2.wf = true) ∧
    st.entries.length < 2 ^ 32 := by
  simp only [State.wf, Bool.and_eq_true, List.all_eq_true, decide_eq_true_eq] at hwf
  exact ⟨fun e he => ⟨(hwf.1 e he).1, (hwf.1 e he).2.1, (hwf.1 e he).2.2⟩, hwf.2.2⟩

/-- MessagePack round-trip at the `State` level. -/
theorem rmp_roundtrip (st : State) (hwf : st.wf = true) :
    rmpDecodeState (rmpEncodeState st) = some st := by
  obtain ⟨hent, hlen⟩ := State.wf_entries st hwf
  unfold rmpEncodeState rmpDecodeState
  rw [parseMpMapHeader_enc _ hlen]
  show (match parseMpEntries st.entries.length (encMpEntries st.entries) with
    | some (entries, _) => some { entries := entries }
    | none => none) = some st
  have he := parseMpEntries_enc st.entries (fun e hx => ⟨(hent e hx).2.1, (hent e hx).2.2⟩) []
  rw [List.append_nil] at he
  rw [he]

/-! ### Decimal digit lemmas for the YAML model -/

theorem parseDigits_map48 (l : List Nat) : ∀ a : Nat,
    (l.map (· + 48)).foldl (fun x d => x * 10 + (d - 48)) a =
      l.foldl (fun x d => x * 10 + d) a := by
  induction l with
  | nil => intro a; rfl
  | cons d t ih =>
    intro a
    simp only [List.map_cons, List.foldl_cons]
    rw [show d + 48 - 48 = d from by omega]
    exact ih _

theorem foldl_base10 (l : List Nat) : ∀ a : Nat,
    l.foldl (fun x d => x * 10 + d) a = a * 10 ^ l.length + Nat.ofDigits 10 l.reverse := by
  induction l with
  | nil => intro a; simp [Nat.ofDigits]
  | cons d t ih =>
    intro a
    simp only [List.foldl_cons, List.reverse_cons, List.length_cons]
    rw [ih (a * 10 + d), Nat.ofDigits_append]
    simp only [Nat.ofDigits_singleton, List.length_reverse]
    ring

theorem parseDigits_renderNat (n : Nat) : parseDigits (renderNat n) = n := by
  unfold renderNat
  split_ifs with h
  · simp [parseDigits, h]
  · unfold parseDigits digitsBE
    rw [parseDigits_map48, foldl_base10]
    simp [Nat.ofDigits_digits]

theorem renderNat_digits (n : Nat) : ∀ b ∈ renderNat n, isDigitByte b = true := by
  unfold renderNat
  split_ifs with h
  · intro b hb
    simp only [List.mem_singleton] at hb
    subst hb
    decide
  · intro b hb
    simp only [digitsBE, List.mem_map, List.mem_reverse] at hb
    obtain ⟨d, hd, rfl⟩ := hb
    have := Nat.digits_lt_base (by norm_num) hd
    simp only [isDigitByte, Bool.and_eq_true, Bool.or_eq_true, decide_eq_true_eq]
    omega

theorem renderNat_ne_nil (n : Nat) : renderNat n ≠ [] := by
  unfold renderNat
  split_ifs with h0
  · simp
  · have hne : Nat.digits 10 n ≠ [] := Nat.digits_ne_nil_iff_ne_zero.mpr h0
    simp [digitsBE, List.map_eq_nil_iff, List.reverse_eq_nil_iff, hne]

theorem renderNat_head_digit (n : Nat) :
    ∃ b t, renderNat n = b :: t ∧ isDigitByte b = true := by
  rcases h : renderNat n with _ | ⟨b, t⟩
  · exact absurd h (renderNat_ne_nil n)
  · exact ⟨b, t, rfl, renderNat_digits n b (h ▸ List.mem_cons_self _ _)⟩

theorem digitsBE_len_le (x f : Nat) (h : x < 10 ^ f) : (digitsBE x).length ≤ f := by
  rcases eq_or_ne x 0 with rfl | hx0
  · simp [digitsBE]
  · simp only [digitsBE, List.length_reverse]
    rw [Nat.digits_len 10 x (by norm_num) hx0]
    have := Nat.log_lt_of_lt_pow hx0 h
    omega

theorem parseDigits_replicate48 (j : Nat) : ∀ ds : List Nat,
    parseDigits (List.replicate j 48 ++ ds) = parseDigits ds := by
  induction j with
  | zero => intro ds; rfl
  | succ j ih =>
    intro ds
    simp only [List.replicate_succ, List.cons_append, parseDigits, List.foldl_cons]
    exact ih ds

theorem renderFracDigits_length (x f : Nat) (h : x < 10 ^ f) :
    (renderFracDigits x f).length = f := by
  have hle := digitsBE_len_le x f h
  simp only [renderFracDigits, List.length_append, List.length_replicate,
    List.length_map]
  omega

theorem parseDigits_renderFracDigits (x f : Nat) :
    parseDigits (renderFracDigits x f) = x := by
  unfold renderFracDigits
  rw [parseDigits_replicate48]
  unfold parseDigits digitsBE
  rw [parseDigits_map48, foldl_base10]
  simp [Nat.ofDigits_digits]

theorem renderFracDigits_digits (x f : Nat) :
    ∀ b ∈ renderFracDigits x f, isDigitByte b = true := by
  intro b hb
  simp only [renderFracDigits, List.mem_append, List.mem_replicate,
    List.mem_map, digitsBE, List.mem_reverse] at hb
  rcases hb with ⟨_, rfl⟩ | ⟨d, hd, rfl⟩
  · decide
  · have := Nat.digits_lt_base (by norm_num) hd
    simp only [isDigitByte, Bool.and_eq_true, Bool.or_eq_true, decide_eq_true_eq]
    omega

theorem takeWhile_split (p : Nat → Bool) (l : List Nat) (c : Nat) (r : List Nat)
    (hl : ∀ b ∈ l, p b = true) (hc : p c = false) :
    (l ++ c :: r).takeWhile p = l ∧ (l ++ c :: r).dropWhile p = c :: r := by
  induction l with
  | nil => simp [List.takeWhile, List.dropWhile, hc]
  | cons b t ih =>
    have hb := hl b (List.mem_cons_self _ _)
    have iht := ih fun x hx => hl x (List.mem_cons_of_mem _ hx)
    simp only [List.cons_append, List.takeWhile_cons, List.dropWhile_cons, hb]
    simp [iht.1, iht.2]

theorem parseIntPayload_cons_ne45 (b : Nat) (t : List Nat) (hb : b ≠ 45) :
    parseIntPayload (b :: t) = parseIntTail false (b :: t) := by
  unfold parseIntPayload
  split
  next heq =>
    rw [List.cons.injEq] at heq
    exact absurd heq.1 hb
  next => rfl

theorem parseFloatPayload_cons_ne45 (b : Nat) (t : List Nat) (hb : b ≠ 45) :
    parseFloatPayload (b :: t) = parseFloatTail false (b :: t) := by
  unfold parseFloatPayload
  split
  next heq =>
    rw [List.cons.injEq] at heq
    exact absurd heq.1 hb
  next => rfl

theorem parseIntTail_renderNat_pos (n : Nat) (hn : (n : Int) < 2 ^ 63) :
    parseIntTail false (renderNat n) = some (n : Int) := by
  unfold parseIntTail
  rw [if_pos ⟨renderNat_ne_nil n, List.all_eq_true.mpr (renderNat_digits n)⟩]
  simp only [Bool.false_eq_true, if_false, parseDigits_renderNat]
  rw [if_pos ⟨by omega, hn⟩]

theorem parseIntTail_renderNat_neg (n : Nat) (hn : (n : Int) ≤ 2 ^ 63) :
    parseIntTail true (renderNat n) = some (-(n : Int)) := by
  unfold parseIntTail
  rw [if_pos ⟨renderNat_ne_nil n, List.all_eq_true.mpr (renderNat_digits n)⟩]
  simp only [if_true, parseDigits_renderNat]
  rw [if_pos ⟨by omega, by omega⟩]

theorem parseIntPayload_render (v : Int) (hlo : -(2 ^ 63) ≤ v) (hhi : v < 2 ^ 63) :
    parseIntPayload (renderIntPayload v) = some v := by
  unfold renderIntPayload
  by_cases hneg : v < 0
  · rw [if_pos hneg]
    show parseIntPayload (45 :: renderNat v.natAbs) = some v
    show parseIntTail true (renderNat v.natAbs) = some v
    have habs : (v.natAbs : Int) = -v := Int.ofNat_natAbs_of_nonpos (show v ≤ 0 by omega)
    rw [parseIntTail_renderNat_neg v.natAbs (by rw [habs]; omega)]
    rw [habs, neg_neg]
  · rw [if_neg hneg]
    simp only [List.nil_append]
    obtain ⟨b, t, hbt, hb⟩ := renderNat_head_digit v.natAbs
    have hb45 : b ≠ 45 := by
      simp only [isDigitByte, Bool.and_eq_true, decide_eq_true_eq] at hb
      omega
    have habs : (v.natAbs : Int) = v := Int.natAbs_of_nonneg (show 0 ≤ v by omega)
    rw [hbt, parseIntPayload_cons_ne45 b t hb45, ← hbt,
      parseIntTail_renderNat_pos v.natAbs (by rw [habs]; omega)]
    rw [habs]

/-! ### Float normalization lemmas -/

/-- A canonical IEEE mantissa/exponent pair: normal (53-bit mantissa) or
subnormal (pinned minimal exponent). -/
def canonicalPair (m : Nat) (e : Int) : Prop :=
  (2 ^ 52 ≤ m ∧ m < 2 ^ 53 ∧ -1074 ≤ e) ∨ (0 < m ∧ m < 2 ^ 52 ∧ e = -1074)

theorem normShift_stop (fuel : Nat) (m : Nat) (e : Int)
    (hcan : canonicalPair m e) (hfuel : 1 ≤ fuel) :
    normShift fuel m e = some (m, e) := by
  cases fuel with
  | zero => omega
  | succ f =>
    unfold normShift
    rw [if_neg (by
      rcases hcan with ⟨h1, h2, h3⟩ | ⟨h1, h2, h3⟩ <;> intro hc <;> omega)]
    rw [if_neg (by
      rcases hcan with ⟨h1, h2, h3⟩ | ⟨h1, h2, h3⟩ <;> omega)]

theorem normShift_shiftl (t : Nat) : ∀ (fuel m : Nat) (e : Int),
    2 ^ t ∣ m → canonicalPair m e → t + 1 ≤ fuel →
    normShift fuel (m / 2 ^ t) (e + t) = some (m, e) := by
  induction t with
  | zero =>
    intro fuel m e _ hcan hfuel
    simp only [pow_zero, Nat.div_one, Nat.cast_zero, add_zero]
    exact normShift_stop fuel m e hcan hfuel
  | succ t ih =>
    intro fuel m e hdvd hcan hfuel
    obtain ⟨c, hc⟩ := hdvd
    have hc2 : 0 < 2 ^ (t + 1) := Nat.pos_pow_of_pos _ (by norm_num)
    have hdivc : m / 2 ^ (t + 1) = c := by
      rw [hc, Nat.mul_div_cancel_left _ hc2]
    have h2le : 2 ≤ 2 ^ (t + 1) := by
      calc 2 = 2 ^ 1 := (pow_one 2).symm
      _ ≤ 2 ^ (t + 1) := Nat.pow_le_pow_right (by norm_num) (by omega)
    have h2c : 2 * c ≤ m := by
      calc 2 * c ≤ 2 ^ (t + 1) * c := Nat.mul_le_mul_right c h2le
      _ = m := hc.symm
    have hm53 : m < 2 ^ 53 := by
      rcases hcan with ⟨_, h2, _⟩ | ⟨_, h2, _⟩
      · exact h2
      · omega
    have hcase : c < 2 ^ 52 := by omega
    have hE : -1074 ≤ e := by
      rcases hcan with ⟨_, _, h3⟩ | ⟨_, _, h3⟩ <;> omega
    cases fuel with
    | zero => omega
    | succ f =>
      unfold normShift
      rw [hdivc, if_pos ⟨hcase, by push_cast; omega⟩]
      have harg1 : 2 * c = m / 2 ^ t := by
        rw [hc, pow_succ]
        rw [show 2 ^ t * 2 * c = 2 ^ t * (2 * c) by ring]
        rw [Nat.mul_div_cancel_left _ (Nat.pos_pow_of_pos _ (by norm_num))]
      have harg2 : e + ((t : Nat) + 1 : Nat) - 1 = e + t := by push_cast; ring
      rw [harg1]
      have := ih f m e ⟨2 * c, by rw [hc, pow_succ]; ring⟩ hcan (by omega)
      calc normShift f (m / 2 ^ t) (e + ((t + 1 : Nat) : Int) - 1)
          = normShift f (m / 2 ^ t) (e + t) := by
            congr 1 <;> push_cast <;> omega
        _ = some (m, e) := this

theorem normShift_shiftr (j : Nat) : ∀ (fuel m : Nat) (e : Int),
    2 ^ 52 ≤ m → m < 2 ^ 53 → -1074 ≤ e → j + 1 ≤ fuel →
    normShift fuel (m * 2 ^ j) (e - j) = some (m, e) := by
  induction j with
  | zero =>
    intro fuel m e h1 h2 h3 hfuel
    simp only [pow_zero, Nat.mul_one, Nat.cast_zero, sub_zero]
    exact normShift_stop fuel m e (Or.inl ⟨h1, h2, h3⟩) hfuel
  | succ j ih =>
    intro fuel m e h1 h2 h3 hfuel
    cases fuel with
    | zero => omega
    | succ f =>
      have hge : 2 ^ 53 ≤ m * 2 ^ (j + 1) := by
        calc 2 ^ 53 = 2 ^ 52 * 2 := by norm_num
        _ ≤ m * 2 ^ (j + 1) := Nat.mul_le_mul h1 (by
            calc 2 = 2 ^ 1 := (pow_one 2).symm
            _ ≤ 2 ^ (j + 1) := Nat.pow_le_pow_right (by norm_num) (by omega))
      unfold normShift
      rw [if_neg (by intro hc; omega), if_pos hge,
        if_pos (by rw [pow_succ, ← Nat.mul_assoc]; exact Nat.mul_mod_left _ 2)]
      have harg1 : m * 2 ^ (j + 1) / 2 = m * 2 ^ j := by
        rw [pow_succ, ← Nat.mul_assoc]
        exact Nat.mul_div_cancel _ (by norm_num)
      have := ih f m e h1 h2 h3 (by omega)
      rw [harg1]
      calc normShift f (m * 2 ^ j) (e - ((j + 1 : Nat) : Int) + 1)
          = normShift f (m * 2 ^ j) (e - j) := by
            congr 1 <;> push_cast <;> omega
        _ = some (m, e) := this

theorem trimFrac_spec (k : Nat) : ∀ n : Nat, 1 ≤ k →
    ∃ t, t + 1 ≤ k ∧ 10 ^ t ∣ n ∧ trimFrac n k = (n / 10 ^ t, k - t) := by
  induction k using Nat.strong_induction_on with
  | _ k ih =>
    match k with
    | 0 => intro n h; omega
    | 1 =>
      intro n _
      exact ⟨0, by omega, by simp, by simp [trimFrac]⟩
    | k + 2 =>
      intro n _
      by_cases h10 : n % 10 = 0
      · obtain ⟨t, ht1, htd, htr⟩ := ih (k + 1) (by omega) (n / 10) (by omega)
        refine ⟨t + 1, by omega, ?_, ?_⟩
        · obtain ⟨c, hc⟩ := htd
          refine ⟨c, ?_⟩
          have hn : n = 10 * (n / 10) := by omega
          rw [hn, hc, pow_succ]
          ring
        · show trimFrac n (k + 2) = _
          unfold trimFrac
          rw [if_pos h10, htr]
          have : n / 10 / 10 ^ t = n / 10 ^ (t + 1) := by
            rw [Nat.div_div_eq_div_mul, pow_succ]
            ring_nf
          rw [this]
          have : k + 1 - t = k + 2 - (t + 1) := by omega
          rw [this]
      · exact ⟨0, by omega, by simp, by
          show trimFrac n (k + 2) = _
          unfold trimFrac
          rw [if_neg h10]
          simp⟩

theorem packBits_normal (sgn : Bool) (e m : Nat) (he1 : 1 ≤ e) (he2 : e ≤ 2046)
    (hm : m < 2 ^ 52) :
    packBits sgn (2 ^ 52 + m) ((e : Int) - 1075) =
      some ((if sgn then 2 ^ 63 else 0) + e * 2 ^ 52 + m) := by
  unfold packBits
  rw [if_pos ⟨by omega, by omega, by omega, by omega⟩]
  have ht : ((e : Int) - 1075 + 1075).toNat = e := by omega
  rw [ht]
  have hsub : 2 ^ 52 + m - 2 ^ 52 = m := by omega
  rw [hsub]

theorem packBits_subnormal (sgn : Bool) (m : Nat) (hm0 : m ≠ 0) (hm : m < 2 ^ 52) :
    packBits sgn m (-1074) = some ((if sgn then 2 ^ 63 else 0) + m) := by
  unfold packBits
  rw [if_neg (by intro hc; omega), if_pos ⟨hm0, hm, rfl⟩]

theorem parseFloatTail_eq (sgn : Bool) (body fpds : List Nat)
    (hdrop : body.dropWhile isDigitByte = 46 :: fpds) :
    parseFloatTail sgn body =
      (if body.takeWhile isDigitByte ≠ [] ∧ fpds ≠ [] ∧ fpds.all isDigitByte then
        parseFloatVal sgn
          (parseDigits (body.takeWhile isDigitByte) * 10 ^ fpds.length +
            parseDigits fpds)
          fpds.length
      else none) := by
  unfold parseFloatTail
  rw [hdrop]

theorem parseFloatTail_renderFloatFrac (sgn : Bool) (M k : Nat)
    (hcan : canonicalPair M (-(k : Int))) (hk1 : 1 ≤ k) (hkb : k ≤ 1074) :
    parseFloatTail sgn (renderFloatFrac M k) = packBits sgn M (-(k : Int)) := by
  have hM : 0 < M := by
    rcases hcan with ⟨h1, _, _⟩ | ⟨h1, _, _⟩
    · have h52 : (0:Nat) < 2 ^ 52 := by norm_num
      omega
    · exact h1
  obtain ⟨t, ht1, hdvd10, htrim⟩ := trimFrac_spec k (M * 5 ^ k) hk1
  have hf1 : 1 ≤ k - t := by omega
  have hdvd2M : 2 ^ t ∣ M := by
    have h2t10 : (2:Nat) ^ t ∣ 10 ^ t :=
      ⟨5 ^ t, by rw [show (10:Nat) = 2 * 5 by norm_num, mul_pow]⟩
    have h2tdvd : (2:Nat) ^ t ∣ M * 5 ^ k := dvd_trans h2t10 hdvd10
    have hcop : Nat.Coprime (2 ^ t) (5 ^ k) := Nat.Coprime.pow t k (by norm_num)
    exact hcop.dvd_of_dvd_mul_right h2tdvd
  obtain ⟨c, hc⟩ := hdvd2M
  have hc0 : 0 < c := by
    rcases Nat.eq_zero_or_pos c with h | h
    · rw [h, Nat.mul_zero] at hc
      omega
    · exact h
  have hps : (0:Nat) < 10 ^ t := Nat.pos_pow_of_pos _ (by norm_num)
  have hN : M * 5 ^ k / 10 ^ t = c * 5 ^ (k - t) := by
    have hsplit : M * 5 ^ k = 10 ^ t * (c * 5 ^ (k - t)) := by
      rw [hc, show (10:Nat) ^ t = 2 ^ t * 5 ^ t by
          rw [show (10:Nat) = 2 * 5 by norm_num, mul_pow],
        show (5:Nat) ^ k = 5 ^ t * 5 ^ (k - t) by
          rw [← pow_add]
          congr 1
          omega]
      ring
    rw [hsplit, Nat.mul_div_cancel_left _ hps]
  have hbody : renderFloatFrac M k =
      renderNat (c * 5 ^ (k - t) / 10 ^ (k - t)) ++
        (46 :: renderFracDigits (c * 5 ^ (k - t) % 10 ^ (k - t)) (k - t)) := by
    simp only [renderFloatFrac, htrim, hN]
  have hfpos : (0:Nat) < 10 ^ (k - t) := Nat.pos_pow_of_pos _ (by norm_num)
  have hmodlt : c * 5 ^ (k - t) % 10 ^ (k - t) < 10 ^ (k - t) := Nat.mod_lt _ hfpos
  have hsplitTD := takeWhile_split isDigitByte
    (renderNat (c * 5 ^ (k - t) / 10 ^ (k - t))) 46
    (renderFracDigits (c * 5 ^ (k - t) % 10 ^ (k - t)) (k - t))
    (renderNat_digits _) (by decide)
  rw [hbody, parseFloatTail_eq sgn _ _ hsplitTD.2, hsplitTD.1]
  have hfraclen : (renderFracDigits (c * 5 ^ (k - t) % 10 ^ (k - t)) (k - t)).length
      = k - t := renderFracDigits_length _ _ hmodlt
  have hfracne : renderFracDigits (c * 5 ^ (k - t) % 10 ^ (k - t)) (k - t) ≠ [] := by
    intro hnil
    rw [hnil] at hfraclen
    simp at hfraclen
    omega
  rw [if_pos ⟨renderNat_ne_nil _, hfracne,
    List.all_eq_true.mpr (renderFracDigits_digits _ _)⟩]
  rw [hfraclen, parseDigits_renderNat, parseDigits_renderFracDigits,
    Nat.div_add_mod' (c * 5 ^ (k - t)) (10 ^ (k - t))]
  have hA0 : c * 5 ^ (k - t) ≠ 0 := by
    have : (0:Nat) < 5 ^ (k - t) := Nat.pos_pow_of_pos _ (by norm_num)
    positivity
  unfold parseFloatVal
  rw [if_neg hA0, if_pos (Nat.mul_mod_left c (5 ^ (k - t))),
    Nat.mul_div_cancel _ (Nat.pos_pow_of_pos _ (by norm_num))]
  have hcM : c = M / 2 ^ t := by
    rw [hc, Nat.mul_div_cancel_left _ (Nat.pos_pow_of_pos _ (by norm_num))]
  have hexp : -((k - t : Nat) : Int) = -(k : Int) + t := by
    have : ((k - t : Nat) : Int) = (k : Int) - t := by
      push_cast [Nat.cast_sub (by omega : t ≤ k)]
      ring
    rw [this]
    ring
  rw [hcM, hexp, normShift_shiftl t 2200 M (-(k : Int)) ⟨c, hc⟩ hcan (by omega)]

theorem renderFloatBody_big (e m : Nat) (he : 1075 ≤ e) :
    renderFloatBody e m = renderNat ((2 ^ 52 + m) * 2 ^ (e - 1075)) ++ [46, 48] := by
  unfold renderFloatBody
  rw [if_neg (by omega), if_neg (by omega), if_pos he]

theorem renderFloatBody_mid (e m : Nat) (he1 : 1 ≤ e) (he2 : e ≤ 1074) :
    renderFloatBody e m = renderFloatFrac (2 ^ 52 + m) (1075 - e) := by
  unfold renderFloatBody
  rw [if_neg (by omega), if_neg (by omega), if_neg (by omega)]

theorem renderFloatBody_sub (m : Nat) (hm : m ≠ 0) :
    renderFloatBody 0 m = renderFloatFrac m 1074 := by
  unfold renderFloatBody
  rw [if_neg (by omega), if_pos rfl]

theorem renderFloatFrac_head_digit (M k : Nat) :
    ∃ b t, renderFloatFrac M k = b :: t ∧ isDigitByte b = true := by
  obtain ⟨b, t, hbt, hb⟩ := renderNat_head_digit
    ((trimFrac (M * 5 ^ k) k).1 / 10 ^ (trimFrac (M * 5 ^ k) k).2)
  refine ⟨b, t ++ (46 :: renderFracDigits
    ((trimFrac (M * 5 ^ k) k).1 % 10 ^ (trimFrac (M * 5 ^ k) k).2)
    (trimFrac (M * 5 ^ k) k).2), ?_, hb⟩
  rw [renderFloatFrac, hbt]
  rfl

theorem renderFloatBody_head_digit (e m : Nat) :
    ∃ b t, renderFloatBody e m = b :: t ∧ isDigitByte b = true := by
  unfold renderFloatBody
  split_ifs with h1 h2 h3
  · exact ⟨48, [46, 48], rfl, by decide⟩
  · exact renderFloatFrac_head_digit m 1074
  · obtain ⟨b, t, hbt, hb⟩ := renderNat_head_digit ((2 ^ 52 + m) * 2 ^ (e - 1075))
    exact ⟨b, t ++ [46, 48], by rw [hbt]; rfl, hb⟩
  · exact renderFloatFrac_head_digit (2 ^ 52 + m) (1075 - e)

theorem parseFloatTail_renderFloatBody (sgn : Bool) (e m : Nat) (he : e < 2048)
    (hfin : e ≠ 2047) (hm : m < 2 ^ 52) :
    parseFloatTail sgn (renderFloatBody e m) =
      some ((if sgn then 2 ^ 63 else 0) + e * 2 ^ 52 + m) := by
  by_cases he0 : e = 0
  · subst he0
    by_cases hm0 : m = 0
    · subst hm0
      show parseFloatTail sgn [48, 46, 48] =
        some ((if sgn then 2 ^ 63 else 0) + 0 * 2 ^ 52 + 0)
      cases sgn <;> rfl
    · rw [renderFloatBody_sub m hm0,
        parseFloatTail_renderFloatFrac sgn m 1074
          (Or.inr ⟨Nat.pos_of_ne_zero hm0, hm, by norm_num⟩)
          (by norm_num) (by norm_num),
        show -((1074 : Nat) : Int) = -1074 by norm_num,
        packBits_subnormal sgn m hm0 hm]
      norm_num
  · by_cases hbig : 1075 ≤ e
    · rw [renderFloatBody_big e m hbig]
      have hsplitTD := takeWhile_split isDigitByte
        (renderNat ((2 ^ 52 + m) * 2 ^ (e - 1075))) 46 [48]
        (renderNat_digits _) (by decide)
      rw [parseFloatTail_eq sgn _ _ hsplitTD.2, hsplitTD.1]
      rw [if_pos ⟨renderNat_ne_nil _, by simp, by decide⟩]
      rw [parseDigits_renderNat]
      have hfp : parseDigits [48] = 0 := by decide
      rw [hfp]
      have hlen : ([48] : List Nat).length = 1 := rfl
      rw [hlen]
      have hNPpos : 0 < (2 ^ 52 + m) * 2 ^ (e - 1075) := by positivity
      unfold parseFloatVal
      have hp1 : (2 ^ 52 + m) * 2 ^ (e - 1075) * 10 ^ 1 + 0 =
          (2 ^ 52 + m) * 2 ^ (e - 1075) * 2 * 5 := by ring
      rw [hp1]
      have hprodpos : 0 < (2 ^ 52 + m) * 2 ^ (e - 1075) * 2 * 5 :=
        Nat.mul_pos (Nat.mul_pos hNPpos (by norm_num)) (by norm_num)
      rw [if_neg (by omega), show (5 : Nat) ^ 1 = 5 by norm_num,
        if_pos (Nat.mul_mod_left ((2 ^ 52 + m) * 2 ^ (e - 1075) * 2) 5),
        Nat.mul_div_cancel _ (by norm_num : (0:Nat) < 5)]
      have hshift : (2 ^ 52 + m) * 2 ^ (e - 1075) * 2 =
          (2 ^ 52 + m) * 2 ^ (e - 1074) := by
        rw [show e - 1074 = (e - 1075) + 1 by omega, pow_succ]
        ring
      rw [hshift]
      have hexp : -(((1 : Nat)) : Int) =
          ((e : Int) - 1075) - ((e - 1074 : Nat) : Int) := by omega
      rw [hexp, normShift_shiftr (e - 1074) 2200 (2 ^ 52 + m) ((e : Int) - 1075)
        (by omega) (by omega) (by omega) (by omega)]
      show packBits sgn (2 ^ 52 + m) ((e : Int) - 1075) = _
      rw [packBits_normal sgn e m (by omega) (by omega) hm]
    · have he1 : 1 ≤ e := by omega
      have he2 : e ≤ 1074 := by omega
      rw [renderFloatBody_mid e m he1 he2,
        parseFloatTail_renderFloatFrac sgn (2 ^ 52 + m) (1075 - e)
          (Or.inl ⟨by omega, by omega, by omega⟩) (by omega) (by omega),
        show -((1075 - e : Nat) : Int) = (e : Int) - 1075 by omega,
        packBits_normal sgn e m he1 (by omega) hm]

theorem parseFloatPayload_render (bits : Nat) (h64 : bits < 2 ^ 64)
    (hfin : bits / 2 ^ 52 % 2 ^ 11 ≠ 2047) :
    parseFloatPayload (renderFloatPayload bits) = some bits := by
  have he : bits / 2 ^ 52 % 2 ^ 11 < 2048 := Nat.mod_lt _ (by norm_num)
  have hm : bits % 2 ^ 52 < 2 ^ 52 := Nat.mod_lt _ (by norm_num)
  unfold renderFloatPayload
  by_cases hs : bits / 2 ^ 63 % 2 = 1
  · rw [if_pos hs]
    show parseFloatTail true
      (renderFloatBody (bits / 2 ^ 52 % 2 ^ 11) (bits % 2 ^ 52)) = some bits
    rw [parseFloatTail_renderFloatBody true _ _ he hfin hm]
    congr 1
    rw [if_pos rfl]
    omega
  · rw [if_neg hs]
    simp only [List.nil_append]
    obtain ⟨b, t, hbt, hb⟩ :=
      renderFloatBody_head_digit (bits / 2 ^ 52 % 2 ^ 11) (bits % 2 ^ 52)
    have hb45 : b ≠ 45 := by
      simp only [isDigitByte, Bool.and_eq_true, decide_eq_true_eq] at hb
      omega
    rw [hbt, parseFloatPayload_cons_ne45 b t hb45, ← hbt,
      parseFloatTail_renderFloatBody false _ _ he hfin hm]
    congr 1
    rw [if_neg (by simp)]
    omega

/-! ### YAML line assembly lemmas -/

theorem plainStr_bytes (s : RStr) (h : plainStr s = true) :
    ∀ b ∈ s, (48 ≤ b ∧ b ≤ 57) ∨ (65 ≤ b ∧ b ≤ 90) ∨ (97 ≤ b ∧ b ≤ 122) ∨ b = 95 := by
  cases s with
  | nil => intro b hb; exact absurd hb (List.not_mem_nil b)
  | cons hd tl =>
    simp only [plainStr, Bool.and_eq_true, List.all_eq_true] at h
    intro b hb
    rcases List.mem_cons.mp hb with rfl | hbtl
    · have := h.1
      simp only [isAlphaByte, Bool.or_eq_true, Bool.and_eq_true,
        decide_eq_true_eq, beq_iff_eq] at this
      omega
    · have := h.2 b hbtl
      simp only [plainByte, Bool.or_eq_true, Bool.and_eq_true,
        decide_eq_true_eq, beq_iff_eq] at this
      omega

/-- Bytes a numeric scalar can contain: minus, dot, digits. -/
def numByte (b : Nat) : Bool := b == 45 || b == 46 || isDigitByte b

theorem renderNat_numBytes (n : Nat) : ∀ b ∈ renderNat n, numByte b = true := by
  intro b hb
  have := renderNat_digits n b hb
  simp only [numByte, Bool.or_eq_true]
  exact Or.inr this

theorem renderFracDigits_numBytes (x f : Nat) :
    ∀ b ∈ renderFracDigits x f, numByte b = true := by
  intro b hb
  have := renderFracDigits_digits x f b hb
  simp only [numByte, Bool.or_eq_true]
  exact Or.inr this

theorem renderFloatFrac_numBytes (M k : Nat) :
    ∀ b ∈ renderFloatFrac M k, numByte b = true := by
  intro b hb
  unfold renderFloatFrac at hb
  rcases List.mem_append.mp hb with h | h
  · exact renderNat_numBytes _ b h
  · rcases List.mem_cons.mp h with rfl | h2
    · decide
    · exact renderFracDigits_numBytes _ _ b h2

theorem renderFloatPayload_numBytes (bits : Nat) :
    ∀ b ∈ renderFloatPayload bits, numByte b = true := by
  intro b hb
  unfold renderFloatPayload at hb
  rcases List.mem_append.mp hb with h | h
  · split_ifs at h
    · rcases List.mem_singleton.mp h with rfl
      decide
    · exact absurd h (List.not_mem_nil b)
  · unfold renderFloatBody at h
    split_ifs at h
    · simp only [List.mem_cons, List.not_mem_nil, or_false] at h
      rcases h with rfl | rfl | rfl <;> decide
    · exact renderFloatFrac_numBytes _ _ b h
    · rcases List.mem_append.mp h with h2 | h2
      · exact renderNat_numBytes _ b h2
      · simp only [List.mem_cons, List.not_mem_nil, or_false] at h2
        rcases h2 with rfl | rfl <;> decide
    · exact renderFloatFrac_numBytes _ _ b h

theorem renderIntPayload_numBytes (v : Int) :
    ∀ b ∈ renderIntPayload v, numByte b = true := by
  intro b hb
  unfold renderIntPayload at hb
  rcases List.mem_append.mp hb with h | h
  · split_ifs at h
    · rcases List.mem_singleton.mp h with rfl
      decide
    · exact absurd h (List.not_mem_nil b)
  · exact renderNat_numBytes _ b h

theorem encYamlValue_bytes (v : StateType) (hv : v.wf = true) :
    ∀ b ∈ encYamlValue v, b ≠ 10 := by
  intro b hb
  cases v with
  | float bits =>
    simp only [encYamlValue] at hb
    rcases List.mem_cons.mp hb with rfl | h
    · omega
    · rcases List.mem_append.mp h with h2 | h2
      · simp only [mpTagFloat, List.mem_cons, List.not_mem_nil, or_false] at h2
        omega
      · rcases List.mem_cons.mp h2 with rfl | h3
        · omega
        · have := renderFloatPayload_numBytes bits b h3
          simp only [numByte, Bool.or_eq_true, beq_iff_eq, isDigitByte,
            Bool.and_eq_true, decide_eq_true_eq] at this
          omega
  | int w =>
    simp only [encYamlValue] at hb
    rcases List.mem_cons.mp hb with rfl | h
    · omega
    · rcases List.mem_append.mp h with h2 | h2
      · simp only [mpTagInt, List.mem_cons, List.not_mem_nil, or_false] at h2
        omega
      · rcases List.mem_cons.mp h2 with rfl | h3
        · omega
        · have := renderIntPayload_numBytes w b h3
          simp only [numByte, Bool.or_eq_true, beq_iff_eq, isDigitByte,
            Bool.and_eq_true, decide_eq_true_eq] at this
          omega
  | string str =>
    simp only [encYamlValue] at hb
    have hp : plainStr str = true := by
      simp only [StateType.wf, Bool.and_eq_true] at hv
      exact hv.1
    rcases List.mem_cons.mp hb with rfl | h
    · omega
    · rcases List.mem_append.mp h with h2 | h2
      · simp only [mpTagString, List.mem_cons, List.not_mem_nil, or_false] at h2
        omega
      · rcases List.mem_cons.mp h2 with rfl | h3
        · omega
        · have := plainStr_bytes str hp b h3
          omega

theorem parseYamlLine_eq (line rest : List Nat)
    (hdrop : line.dropWhile notColon = 58 :: 32 :: 33 :: rest) :
    parseYamlLine line =
      (match rest.dropWhile notSpace with
       | 32 :: payload =>
         if rest.takeWhile notSpace = mpTagFloat then
           (parseFloatPayload payload).map fun bits =>
             (line.takeWhile notColon, StateType.float bits)
         else if rest.takeWhile notSpace = mpTagInt then
           (parseIntPayload payload).map fun v =>
             (line.takeWhile notColon, StateType.int v)
         else if rest.takeWhile notSpace = mpTagString then
           some (line.takeWhile notColon, StateType.string payload)
         else none
       | _ => none) := by
  unfold parseYamlLine
  rw [hdrop]

theorem parseYamlLine_eq2 (line rest payload : List Nat)
    (hdrop : line.dropWhile notColon = 58 :: 32 :: 33 :: rest)
    (hdrop2 : rest.dropWhile notSpace = 32 :: payload) :
    parseYamlLine line =
      (if rest.takeWhile notSpace = mpTagFloat then
        (parseFloatPayload payload).map fun bits =>
          (line.takeWhile notColon, StateType.float bits)
      else if rest.takeWhile notSpace = mpTagInt then
        (parseIntPayload payload).map fun v =>
          (line.takeWhile notColon, StateType.int v)
      else if rest.takeWhile notSpace = mpTagString then
        some (line.takeWhile notColon, StateType.string payload)
      else none) := by
  rw [parseYamlLine_eq line rest hdrop, hdrop2]

theorem parseYamlLine_enc (key : RStr) (v : StateType)
    (hkey : plainStr key = true) (hv : v.wf = true) :
    parseYamlLine (key ++ (58 :: 32 :: encYamlValue v)) = some (key, v) := by
  have hkeyNC : ∀ b ∈ key, notColon b = true := by
    intro b hb
    have := plainStr_bytes key hkey b hb
    simp only [notColon, bne_iff_ne, ne_eq]
    omega
  have hsplitKey := takeWhile_split notColon key 58 (32 :: encYamlValue v)
    hkeyNC (by decide)
  cases v with
  | float bits =>
    have hwf : bits < 2 ^ 64 ∧ bits / 2 ^ 52 % 2 ^ 11 ≠ 2047 := by
      simp only [StateType.wf, Bool.and_eq_true, decide_eq_true_eq] at hv
      exact hv
    have hdrop : (key ++ (58 :: 32 :: encYamlValue (StateType.float bits))).dropWhile
        notColon = 58 :: 32 :: 33 :: (mpTagFloat ++ (32 :: renderFloatPayload bits)) :=
      hsplitKey.2
    have hsplitTag := takeWhile_split notSpace mpTagFloat 32 (renderFloatPayload bits)
      (by decide) (by decide)
    rw [parseYamlLine_eq2 _ _ _ hdrop hsplitTag.2, hsplitTag.1, if_pos rfl,
      parseFloatPayload_render bits hwf.1 hwf.2]
    simp only [Option.map_some']
    rw [hsplitKey.1]
  | int w =>
    have hwf : -(2 ^ 63) ≤ w ∧ w < 2 ^ 63 := by
      simp only [StateType.wf, Bool.and_eq_true, decide_eq_true_eq] at hv
      exact hv
    have hdrop : (key ++ (58 :: 32 :: encYamlValue (StateType.int w))).dropWhile
        notColon = 58 :: 32 :: 33 :: (mpTagInt ++ (32 :: renderIntPayload w)) :=
      hsplitKey.2
    have hsplitTag := takeWhile_split notSpace mpTagInt 32 (renderIntPayload w)
      (by decide) (by decide)
    rw [parseYamlLine_eq2 _ _ _ hdrop hsplitTag.2, hsplitTag.1,
      if_neg (by decide), if_pos rfl, parseIntPayload_render w hwf.1 hwf.2]
    simp only [Option.map_some']
    rw [hsplitKey.1]
  | string str =>
    have hdrop : (key ++ (58 :: 32 :: encYamlValue (StateType.string str))).dropWhile
        notColon = 58 :: 32 :: 33 :: (mpTagString ++ (32 :: str)) :=
      hsplitKey.2
    have hsplitTag := takeWhile_split notSpace mpTagString 32 str (by decide) (by
      decide)
    rw [parseYamlLine_eq2 _ _ _ hdrop hsplitTag.2, hsplitTag.1,
      if_neg (by decide), if_neg (by decide), if_pos rfl, hsplitKey.1]

theorem splitLinesAux_cons_ne10 (acc : List Nat) (b : Nat) (t : List Nat)
    (hb : b ≠ 10) : splitLinesAux acc (b :: t) = splitLinesAux (b :: acc) t := by
  conv_lhs => unfold splitLinesAux
  rw [if_neg hb]

theorem splitLinesAux_append (l : List Nat) : ∀ (acc rest : List Nat),
    (∀ b ∈ l, b ≠ 10) →
    splitLinesAux acc (l ++ 10 :: rest) =
      (splitLinesAux [] rest).map ((acc.reverse ++ l) :: ·) := by
  induction l with
  | nil =>
    intro acc rest _
    simp only [List.nil_append, List.append_nil]
    show splitLinesAux acc (10 :: rest) = _
    conv_lhs => unfold splitLinesAux
    rw [if_pos rfl]
  | cons b t ih =>
    intro acc rest hl
    have hb : b ≠ 10 := hl b (List.mem_cons_self _ _)
    rw [List.cons_append, splitLinesAux_cons_ne10 acc b _ hb,
      ih (b :: acc) rest (fun x hx => hl x (List.mem_cons_of_mem _ hx))]
    congr 1
    funext lines
    simp

theorem splitLines_cons (content : List Nat) (hnc : ∀ b ∈ content, b ≠ 10)
    (rest : List Nat) :
    splitLines (content ++ 10 :: rest) = (splitLines rest).map (content :: ·) := by
  have := splitLinesAux_append content [] rest hnc
  simpa [splitLines] using this

/-- The content bytes of one encoded line (everything before its
terminating newline) are newline-free. -/
theorem encYamlContent_no10 (key : RStr) (v : StateType)
    (hkey : plainStr key = true) (hv : v.wf = true) :
    ∀ b ∈ key ++ (58 :: 32 :: encYamlValue v), b ≠ 10 := by
  intro b hb
  rcases List.mem_append.mp hb with h | h
  · have := plainStr_bytes key hkey b h
    omega
  · rcases List.mem_cons.mp h with rfl | h2
    · omega
    · rcases List.mem_cons.mp h2 with rfl | h3
      · omega
      · exact encYamlValue_bytes v hv b h3

theorem splitLines_encLines (l : List (RStr × StateType))
    (hl : ∀ e ∈ l, plainStr e.1 = true ∧ e.2.wf = true) :
    splitLines ((l.map encYamlLine).flatten) =
      some (l.map fun e => e.1 ++ (58 :: 32 :: encYamlValue e.2)) := by
  induction l with
  | nil => rfl
  | cons e t ih =>
    obtain ⟨k, v⟩ := e
    have hkv := hl (k, v) (List.mem_cons_self _ _)
    have hflat : ((((k, v) :: t).map encYamlLine).flatten : List Nat) =
        (k ++ (58 :: 32 :: encYamlValue v)) ++
          (10 :: (t.map encYamlLine).flatten) := by
      simp only [List.map_cons, List.flatten_cons, encYamlLine]
      simp [List.append_assoc]
    rw [hflat, splitLines_cons _ (encYamlContent_no10 k v hkv.1 hkv.2) _,
      ih (fun x hx => hl x (List.mem_cons_of_mem _ hx))]
    rfl

theorem parseYamlLines_enc (l : List (RStr × StateType))
    (hl : ∀ e ∈ l, plainStr e.1 = true ∧ e.2.wf = true) :
    parseYamlLines (l.map fun e => e.1 ++ (58 :: 32 :: encYamlValue e.2)) =
      some l := by
  induction l with
  | nil => rfl
  | cons e t ih =>
    obtain ⟨k, v⟩ := e
    have hkv := hl (k, v) (List.mem_cons_self _ _)
    simp only [List.map_cons, parseYamlLines]
    rw [parseYamlLine_enc k v hkv.1 hkv.2]
    show (parseYamlLines (t.map fun e => e.1 ++ (58 :: 32 :: encYamlValue e.2))).map
      ((k, v) :: ·) = some ((k, v) :: t)
    rw [ih (fun x hx => hl x (List.mem_cons_of_mem _ hx))]
    rfl

/-- YAML round-trip at the `State` level. -/
theorem yaml_roundtrip (st : State) (hwf : st.wf = true) :
    yamlDecodeState (yamlEncodeState st) = some st := by
  obtain ⟨hent, _⟩ := State.wf_entries st hwf
  have hentp : ∀ e ∈ st.entries, plainStr e.1 = true ∧ e.2.wf = true :=
    fun e he => ⟨(hent e he).1, (hent e he).2.2⟩
  cases hE : st.entries with
  | nil =>
    have hst : st = { entries := [] } := by
      cases st
      simp_all
    rw [hst]
    rfl
  | cons e0 t0 =>
    obtain ⟨k0, v0⟩ := e0
    have hmem : ((k0, v0) : RStr × StateType) ∈ st.entries := by
      rw [hE]
      exact List.mem_cons_self _ _
    have hk0 : plainStr k0 = true := (hentp _ hmem).1
    have hbytes : yamlEncodeState st = (((k0, v0) :: t0).map encYamlLine).flatten := by
      unfold yamlEncodeState
      rw [hE, if_neg (by simp)]
    have hhead : ∃ b rest2, yamlEncodeState st = b :: rest2 ∧ b ≠ 123 := by
      obtain ⟨kb, kt, hkbt⟩ : ∃ kb kt, k0 = kb :: kt := by
        cases hk : k0 with
        | nil => rw [hk] at hk0; exact absurd hk0 (by decide)
        | cons a b => exact ⟨a, b, rfl⟩
      refine ⟨kb, kt ++ ((58 :: 32 :: encYamlValue v0) ++ [10]) ++
        (t0.map encYamlLine).flatten, ?_, ?_⟩
      · rw [hbytes]
        simp only [List.map_cons, List.flatten_cons, encYamlLine, hkbt]
        simp [List.append_assoc]
      · have := plainStr_bytes k0 hk0 kb (by rw [hkbt]; exact List.mem_cons_self _ _)
        omega
    obtain ⟨b, rest2, hbr, hbne⟩ := hhead
    have hne : yamlEncodeState st ≠ [123, 125, 10] := by
      rw [hbr]
      intro hcontra
      rw [List.cons.injEq] at hcontra
      exact hbne hcontra.1
    unfold yamlDecodeState
    rw [if_neg hne]
    rw [hbytes, splitLines_encLines ((k0, v0) :: t0) (by rw [← hE]; exact hentp),
      ← hE]
    show (parseYamlLines (st.entries.map fun e =>
      e.1 ++ (58 :: 32 :: encYamlValue e.2))).map (fun es => ({ entries := es } : State))
      = some st
    rw [parseYamlLines_enc st.entries hentp]
    rfl

/-- C7: for every well-formed key-value state mapping (unique plain-scalar
keys, finite floats, in-range integers — the domain of the Rust types as
serialized), saving it through either supported encoding backend
(MessagePack or YAML) with `Asset::save` and loading the result with
`Asset::load` reproduces the identical mapping: same keys in the same
iteration order, same variant tags, same values. -/
theorem c7_state_roundtrip_either_backend (backend : Backend) (st : State)
    (hwf : st.wf = true) :
    Asset.load backend (Asset.save backend st) = some st := by
  cases backend with
  | messagePack => exact rmp_roundtrip st hwf
  | yaml => exact yaml_roundtrip st hwf

/-- C7 witness: the spec's own example mapping
`\x7b"health": Float(75.0), "level": Int(3)\x7d` (with `75.0` as its
IEEE-754 bit pattern 4634978072750194688), round-tripped through both
backends. -/
theorem c7_witness :
    let st : State := { entries := [
      ([104, 101, 97, 108, 116, 104], StateType.float 4634978072750194688),
      ([108, 101, 118, 101, 108], StateType.int 3)] }
    st.wf = true ∧
    Asset.load Backend.yaml (Asset.save Backend.yaml st) = some st ∧
    Asset.load Backend.messagePack (Asset.save Backend.messagePack st) = some st :=
  ⟨by decide,
   c7_state_roundtrip_either_backend Backend.yaml _ (by decide),
   c7_state_roundtrip_either_backend Backend.messagePack _ (by decide)⟩
